import Mathlib

/-!
Verification of the kiss-tracker backend: a shallow embedding of the two
record-store implementations (file-backed `database.js` as bundled in
`db_loader.js`, and the Postgres-backed `database_pg.js`), of the SSE
subscriber registry and broadcast function, of the relevant Express route
handlers, and of the database-loader initialization gate.

Timestamps (`Date.now()`, `new Date().toISOString()`, SQL `now()`) are
modelled as natural numbers supplied by the caller (a clock oracle), and
generated identifiers (`Date.now()`, `Date.now() + Math.random()`,
`randomUUID()`) are likewise oracle inputs.
-/

namespace KissTracker

/-! ### JavaScript object / Map embedding

JS objects keyed by strings become association lists: lookup returns the
first binding, assignment overwrites an existing binding in place or appends
a new one, and `Map.delete` removes the key. -/

def objLookup {α : Type} (m : List (String × α)) (k : String) : Option α :=
  match m with
  | [] => none
  | (k', v) :: rest => if k' = k then some v else objLookup rest k

def objInsert {α : Type} (m : List (String × α)) (k : String) (v : α) :
    List (String × α) :=
  match m with
  | [] => [(k, v)]
  | (k', v') :: rest =>
      if k' = k then (k, v) :: rest else (k', v') :: objInsert rest k v

def objErase {α : Type} (m : List (String × α)) (k : String) :
    List (String × α) :=
  match m with
  | [] => []
  | (k', v) :: rest =>
      if k' = k then objErase rest k else (k', v) :: objErase rest k

theorem objLookup_insert_self {α : Type} (m : List (String × α)) (k : String)
    (v : α) : objLookup (objInsert m k v) k = some v := by
  induction m with
  | nil => simp [objInsert, objLookup]
  | cons p rest ih =>
      obtain ⟨k', v'⟩ := p
      by_cases h : k' = k
      · simp [objInsert, h, objLookup]
      · simp [objInsert, h, objLookup, ih]

theorem objLookup_insert_ne {α : Type} (m : List (String × α)) (k k' : String)
    (v : α) (h : k' ≠ k) :
    objLookup (objInsert m k v) k' = objLookup m k' := by
  induction m with
  | nil => simp [objInsert, objLookup, Ne.symm h]
  | cons p rest ih =>
      obtain ⟨k0, v0⟩ := p
      by_cases hk : k0 = k
      · subst hk
        simp [objInsert, objLookup, Ne.symm h]
      · simp only [objInsert, if_neg hk]
        by_cases hk' : k0 = k'
        · simp [objLookup, hk']
        · simp [objLookup, hk', ih]

theorem objLookup_erase_self {α : Type} (m : List (String × α)) (k : String) :
    objLookup (objErase m k) k = none := by
  induction m with
  | nil => simp [objErase, objLookup]
  | cons p rest ih =>
      obtain ⟨k0, v0⟩ := p
      by_cases hk : k0 = k
      · simpa [objErase, hk] using ih
      · simpa [objErase, objLookup, hk] using ih

theorem objLookup_erase_ne {α : Type} (m : List (String × α)) (k k' : String)
    (h : k' ≠ k) : objLookup (objErase m k) k' = objLookup m k' := by
  induction m with
  | nil => simp [objErase, objLookup]
  | cons p rest ih =>
      obtain ⟨k0, v0⟩ := p
      by_cases hk : k0 = k
      · subst hk
        simpa [objErase, objLookup, Ne.symm h] using ih
      · by_cases hk' : k0 = k'
        · subst hk'
          simp [objErase, objLookup, hk]
        · simpa [objErase, objLookup, hk, hk'] using ih

/-! ### Data model -/

/-- A tracking record as stored by the file-backed `database.js`
(`createTracking` object literal). -/
structure Tracking where
  id : Nat
  tracking_number : String
  kiss_provider : String
  destination : String
  eta : String
  status : String
  update_key : String
  creator_timezone : String
  creator_locale : String
  created_at : Nat
  updated_at : Nat
deriving Repr, DecidableEq

/-- A location event as stored by the file-backed `addTrackRecord`. -/
structure TrackRecord where
  id : Nat
  tracking_id : Nat
  location : String
  timestamp : Nat
deriving Repr, DecidableEq

/-- The file-backed database state: the two whole-document JSON files
`trackings.json` (tracking number to record) and `track_records.json`
(tracking number to ordered event list). -/
structure FileDB where
  trackings : List (String × Tracking)
  track_records : List (String × List TrackRecord)
deriving Repr, DecidableEq

def fileEmpty : FileDB := ⟨[], []⟩

/-! ### File-backed operations (`database.js` as concatenated in
`db_loader.js`) -/

/-- `database.createTracking`: builds the record with `id = Date.now()`,
status `"Preparing"`, and stores it under its tracking number, overwriting
any record already there. -/
def FileDB.createTracking (db : FileDB) (now : Nat)
    (trackingNumber kissProvider destination eta updateKey : String)
    (creatorTimezone creatorLocale : String) : Nat × FileDB :=
  let t : Tracking :=
    { id := now
      tracking_number := trackingNumber
      kiss_provider := kissProvider
      destination := destination
      eta := eta
      status := "Preparing"
      update_key := updateKey
      creator_timezone := creatorTimezone
      creator_locale := creatorLocale
      created_at := now
      updated_at := now }
  (t.id, { db with trackings := objInsert db.trackings trackingNumber t })

/-- `database.getTracking`: `trackings[trackingNumber] || null`. -/
def FileDB.getTracking (db : FileDB) (trackingNumber : String) :
    Option Tracking :=
  objLookup db.trackings trackingNumber

/-- `database.updateEta`. -/
def FileDB.updateEta (db : FileDB) (now : Nat) (trackingNumber newEta : String) :
    Bool × FileDB :=
  match objLookup db.trackings trackingNumber with
  | none => (false, db)
  | some t =>
      let t' : Tracking := { t with eta := newEta, updated_at := now }
      (true, { db with trackings := objInsert db.trackings trackingNumber t' })

/-- `database.updateStatus`. -/
def FileDB.updateStatus (db : FileDB) (now : Nat)
    (trackingNumber newStatus : String) : Bool × FileDB :=
  match objLookup db.trackings trackingNumber with
  | none => (false, db)
  | some t =>
      let t' : Tracking := { t with status := newStatus, updated_at := now }
      (true, { db with trackings := objInsert db.trackings trackingNumber t' })

/-- `database.updateDestination`. -/
def FileDB.updateDestination (db : FileDB) (now : Nat)
    (trackingNumber newDestination : String) : Bool × FileDB :=
  match objLookup db.trackings trackingNumber with
  | none => (false, db)
  | some t =>
      let t' : Tracking := { t with destination := newDestination, updated_at := now }
      (true, { db with trackings := objInsert db.trackings trackingNumber t' })

/-- `database.addTrackRecord`: makes the event list for the tracking number
when absent, pushes the new event (`id = Date.now() + Math.random()`,
modelled by the oracle `rid`), and returns the event id.  No check against
the trackings mapping is made. -/
def FileDB.addTrackRecord (db : FileDB) (now rid : Nat) (trackingId : Nat)
    (trackingNumber location : String) : Nat × FileDB :=
  let recs := (objLookup db.track_records trackingNumber).getD []
  let r : TrackRecord :=
    { id := rid, tracking_id := trackingId, location := location,
      timestamp := now }
  (rid,
    { db with track_records :=
        objInsert db.track_records trackingNumber (recs ++ [r]) })

/-- `database.getTrackRecords`: `records[trackingNumber] || []`, in insertion
order, with no sorting. -/
def FileDB.getTrackRecords (db : FileDB) (trackingNumber : String) :
    List TrackRecord :=
  (objLookup db.track_records trackingNumber).getD []

/-- `database.removeDeliveryRecords`: filters out events whose location is
exactly `"Delivered"`, writes back only when the length changed, and returns
whether anything was removed. -/
def FileDB.removeDeliveryRecords (db : FileDB) (trackingNumber : String) :
    Bool × FileDB :=
  match objLookup db.track_records trackingNumber with
  | none => (false, db)
  | some recs =>
      let filtered := recs.filter (fun r => !(r.location == "Delivered"))
      let removed := recs.length ≠ filtered.length
      if removed then
        (true,
          { db with track_records :=
              objInsert db.track_records trackingNumber filtered })
      else (false, db)

/-- Comparator used by the file-backed `getTrackingWithRecords`:
`(a, b) => new Date(a.timestamp) - new Date(b.timestamp)` — ascending by
timestamp, stable (Array#sort is stable). -/
def recLE (a b : TrackRecord) : Prop := a.timestamp ≤ b.timestamp

instance : DecidableRel recLE := fun a b => Nat.decLe a.timestamp b.timestamp

instance : IsTotal TrackRecord recLE := ⟨fun a b => Nat.le_total a.timestamp b.timestamp⟩

instance : IsTrans TrackRecord recLE := ⟨fun _ _ _ => Nat.le_trans⟩

/-- `database.getTrackingWithRecords`: the record together with its events
sorted ascending by timestamp. -/
def FileDB.getTrackingWithRecords (db : FileDB) (trackingNumber : String) :
    Option (Tracking × List TrackRecord) :=
  match db.getTracking trackingNumber with
  | none => none
  | some t => some (t, (db.getTrackRecords trackingNumber).insertionSort recLE)

/-- `database.verifyUpdateKey`: absent record yields `false`, otherwise a
strict string comparison with the stored `update_key`. -/
def FileDB.verifyUpdateKey (db : FileDB) (trackingNumber providedKey : String) :
    Bool :=
  match db.getTracking trackingNumber with
  | none => false
  | some t => t.update_key == providedKey

/-- `database.getAllTrackings` (diagnostic). -/
def FileDB.getAllTrackings (db : FileDB) : List (String × Tracking) :=
  db.trackings

/-! ### Postgres-backed operations (`database_pg.js`)

The relational state is embedded as the two tables, rows in insertion
order.  `tracking_number` carries a UNIQUE constraint, and
`track_records.tracking_id` a foreign key into `trackings(id)`. -/

/-- A row of the `trackings` table.  The `creator_timezone` and
`creator_locale` columns carry the schema defaults, since `createTracking`
never sets them. -/
structure PgTracking where
  id : String
  tracking_number : String
  kiss_provider : String
  destination : String
  eta : String
  status : String
  update_key : String
  creator_timezone : String
  creator_locale : String
  created_at : Nat
  updated_at : Nat
deriving Repr, DecidableEq

/-- A row of the `track_records` table. -/
structure PgRecordRow where
  id : String
  tracking_id : String
  tracking_number : String
  location : String
  timestamp : Nat
deriving Repr, DecidableEq

/-- The Postgres database state. -/
structure PgDB where
  trackings : List PgTracking
  track_records : List PgRecordRow
deriving Repr, DecidableEq

def pgEmpty : PgDB := ⟨[], []⟩

/-- Errors the backing engine can raise on the statements issued by
`database_pg.js`. -/
inductive PgError where
  | uniqueViolation
  | fkViolation
deriving Repr, DecidableEq

/-- `database_pg.createTracking`: an INSERT that violates the
`tracking_number` UNIQUE constraint raises; otherwise the row is stored with
status `'Preparing'` and the generated UUID is returned. -/
def PgDB.createTracking (db : PgDB) (uuid : String) (now : Nat)
    (trackingNumber kissProvider destination eta updateKey : String) :
    Except PgError (String × PgDB) :=
  if db.trackings.any (fun r => r.tracking_number == trackingNumber) then
    .error .uniqueViolation
  else
    let row : PgTracking :=
      { id := uuid
        tracking_number := trackingNumber
        kiss_provider := kissProvider
        destination := destination
        eta := eta
        status := "Preparing"
        update_key := updateKey
        creator_timezone := "Europe/Zurich"
        creator_locale := "en-CH"
        created_at := now
        updated_at := now }
    .ok (uuid, { db with trackings := db.trackings ++ [row] })

/-- `database_pg.getTracking`: `SELECT * ... WHERE tracking_number = $1`,
first row or null. -/
def PgDB.getTracking (db : PgDB) (trackingNumber : String) :
    Option PgTracking :=
  db.trackings.find? (fun r => r.tracking_number == trackingNumber)

/-- `database_pg.updateEta`: UPDATE with `rowCount > 0` as the result. -/
def PgDB.updateEta (db : PgDB) (now : Nat) (trackingNumber newEta : String) :
    Bool × PgDB :=
  (db.trackings.any (fun r => r.tracking_number == trackingNumber),
    { db with trackings := db.trackings.map (fun r =>
        if r.tracking_number == trackingNumber then
          { r with eta := newEta, updated_at := now }
        else r) })

/-- `database_pg.updateDestination`. -/
def PgDB.updateDestination (db : PgDB) (now : Nat)
    (trackingNumber newDestination : String) : Bool × PgDB :=
  (db.trackings.any (fun r => r.tracking_number == trackingNumber),
    { db with trackings := db.trackings.map (fun r =>
        if r.tracking_number == trackingNumber then
          { r with destination := newDestination, updated_at := now }
        else r) })

/-- `database_pg.updateStatus`. -/
def PgDB.updateStatus (db : PgDB) (now : Nat)
    (trackingNumber newStatus : String) : Bool × PgDB :=
  (db.trackings.any (fun r => r.tracking_number == trackingNumber),
    { db with trackings := db.trackings.map (fun r =>
        if r.tracking_number == trackingNumber then
          { r with status := newStatus, updated_at := now }
        else r) })

/-- `database_pg.addTrackRecord`: an INSERT whose `tracking_id` does not
reference an existing `trackings.id` violates the foreign key and raises;
otherwise the row is appended and the generated UUID returned. -/
def PgDB.addTrackRecord (db : PgDB) (uuid : String) (now : Nat)
    (trackingId : String) (trackingNumber location : String) :
    Except PgError (String × PgDB) :=
  if db.trackings.any (fun r => r.id == trackingId) then
    .ok (uuid,
      { db with track_records := db.track_records ++
          [{ id := uuid, tracking_id := trackingId,
             tracking_number := trackingNumber, location := location,
             timestamp := now }] })
  else .error .fkViolation

/-- Comparator of the `ORDER BY timestamp ASC` clause. -/
def rowLE (a b : PgRecordRow) : Prop := a.timestamp ≤ b.timestamp

instance : DecidableRel rowLE := fun a b => Nat.decLe a.timestamp b.timestamp

instance : IsTotal PgRecordRow rowLE :=
  ⟨fun a b => Nat.le_total a.timestamp b.timestamp⟩

instance : IsTrans PgRecordRow rowLE := ⟨fun _ _ _ => Nat.le_trans⟩

/-- `database_pg.getTrackRecords`:
`SELECT * ... WHERE tracking_number = $1 ORDER BY timestamp ASC`. -/
def PgDB.getTrackRecords (db : PgDB) (trackingNumber : String) :
    List PgRecordRow :=
  (db.track_records.filter
      (fun r => r.tracking_number == trackingNumber)).insertionSort rowLE

/-- `database_pg.removeDeliveryRecords`:
`DELETE ... WHERE tracking_number = $1 AND location = 'Delivered'`,
result `rowCount > 0`. -/
def PgDB.removeDeliveryRecords (db : PgDB) (trackingNumber : String) :
    Bool × PgDB :=
  (db.track_records.any (fun r =>
      r.tracking_number == trackingNumber && r.location == "Delivered"),
    { db with track_records := db.track_records.filter (fun r =>
        !(r.tracking_number == trackingNumber && r.location == "Delivered")) })

/-- `database_pg.getTrackingWithRecords`. -/
def PgDB.getTrackingWithRecords (db : PgDB) (trackingNumber : String) :
    Option (PgTracking × List PgRecordRow) :=
  match db.getTracking trackingNumber with
  | none => none
  | some t => some (t, db.getTrackRecords trackingNumber)

/-- `database_pg.verifyUpdateKey`. -/
def PgDB.verifyUpdateKey (db : PgDB) (trackingNumber providedKey : String) :
    Bool :=
  match db.getTracking trackingNumber with
  | none => false
  | some t => t.update_key == providedKey

/-- `database_pg.getAllTrackings`. -/
def PgDB.getAllTrackings (db : PgDB) : List PgTracking :=
  db.trackings

/-! ### SSE subscriber registry and broadcast (server, `sseClients`) -/

/-- A subscriber handle: an Express response object, as far as the
broadcast path observes it (`headersSent`, `writable`, and whether a
`write` call would throw). -/
structure SseClient where
  cid : Nat
  headersSent : Bool
  writable : Bool
  writeFails : Bool
deriving Repr, DecidableEq

/-- `sseClients`: Map from tracking number to the set of response objects. -/
abbrev SseRegistry := List (String × List SseClient)

/-- Structured payloads the handlers pass to `broadcastToTracking`, before
`JSON.stringify`. -/
inductive EventData where
  | connected (trackingNumber : String)
  | heartbeat (t : Nat)
  | locationUpdate (location : String) (timestamp : Nat) (recordId : Nat)
  | statusChange (status : String)
  | etaChange (eta : String)
  | destinationChange (destination : String)
  | deliveryRemoved (trackingNumber : String)
deriving Repr, DecidableEq

/-- `JSON.stringify` of the handler payload objects. -/
def stringifyData : EventData → String
  | .connected tn => "\x7b\"trackingNumber\":\"" ++ tn ++ "\"\x7d"
  | .heartbeat t => toString t
  | .locationUpdate loc ts rid =>
      "\x7b\"location\":\"" ++ loc ++ "\",\"timestamp\":" ++ toString ts ++
        ",\"recordId\":" ++ toString rid ++ "\x7d"
  | .statusChange s => "\x7b\"status\":\"" ++ s ++ "\"\x7d"
  | .etaChange e => "\x7b\"eta\":\"" ++ e ++ "\"\x7d"
  | .destinationChange d => "\x7b\"destination\":\"" ++ d ++ "\"\x7d"
  | .deliveryRemoved tn => "\x7b\"trackingNumber\":\"" ++ tn ++ "\"\x7d"

/-- The SSE frame: `event: <type>` newline `data: <json>` blank line. -/
def frameMessage (eventType dataStr : String) : String :=
  "event: " ++ eventType ++ "\ndata: " ++ dataStr ++ "\n\n"

/-- The broadcast loop body condition and outcome for one client:
`res.write` is reached when `!res.headersSent || res.writable`, and the
client stays in the active set only when that write does not throw. -/
def clientKept (c : SseClient) : Bool :=
  (!c.headersSent || c.writable) && !c.writeFails

/-- `broadcastToTracking(trackingNumber, eventType, data)`: writes the
framed message to each registered client that passes the writability check
and whose write does not throw, keeps exactly those clients, and drops the
tracking number entry when none survive.  Returns the new registry and the
list of `(client id, message)` deliveries made. -/
def broadcastToTracking (reg : SseRegistry) (trackingNumber eventType : String)
    (data : EventData) : SseRegistry × List (Nat × String) :=
  match objLookup reg trackingNumber with
  | none => (reg, [])
  | some clients =>
      let message := frameMessage eventType (stringifyData data)
      let activeClients := clients.filter clientKept
      let delivered := activeClients.map (fun c => (c.cid, message))
      if activeClients.length > 0 then
        (objInsert reg trackingNumber activeClients, delivered)
      else
        (objErase reg trackingNumber, delivered)

/-- The subscription step of the SSE events route: the response is added to
the set for its tracking number (creating the set when absent). -/
def sseSubscribe (reg : SseRegistry) (trackingNumber : String)
    (c : SseClient) : SseRegistry :=
  let cur := (objLookup reg trackingNumber).getD []
  objInsert reg trackingNumber (cur ++ [c])

/-- The close handler of the SSE events route: the response is removed from
its set, and the entry dropped when the set empties. -/
def sseUnsubscribe (reg : SseRegistry) (trackingNumber : String)
    (c : SseClient) : SseRegistry :=
  match objLookup reg trackingNumber with
  | none => reg
  | some clients =>
      let rest := clients.filter (fun x => !(x == c))
      if rest.length = 0 then objErase reg trackingNumber
      else objInsert reg trackingNumber rest

/-! ### Route handlers (server, `app.put('/api/tracking/:trackingNumber/status')`
and the two record-reading GET routes), bound to the file-backed store -/

/-- `validStatuses` of the status route. -/
def validStatuses : List String :=
  ["Preparing", "In Transit", "Out for Delivery", "Delivered", "Delayed"]

/-- Outcome of one status-route request: HTTP code, resulting store and
registry, and the ordered `broadcastToTracking` calls the handler made. -/
structure PutStatusResult where
  code : Nat
  db : FileDB
  reg : SseRegistry
  broadcasts : List (String × EventData)
deriving Repr, DecidableEq

/-- The `verifyUpdateKey` middleware condition: `req.query.key ||
req.body.updateKey` is falsy when absent or the empty string. -/
def keyMissing : Option String → Bool
  | none => true
  | some k => k == ""

/-- The PUT status handler behind the `verifyUpdateKey` middleware:
401 without a key, 403 on a bad key, 400 on a missing or invalid status,
404 when the store update reports the tracking number absent; then the
`Delivered` branch appends a `"Delivered"` event and broadcasts a
location-update, the non-`Delivered` branch removes delivery records and
broadcasts delivery-removed only when something was removed, and a
status-change broadcast closes every successful request. -/
def putStatus (db : FileDB) (reg : SseRegistry) (trackingNumber : String)
    (key : Option String) (status : Option String) (now rid : Nat) :
    PutStatusResult :=
  if keyMissing key then ⟨401, db, reg, []⟩
  else if !(db.verifyUpdateKey trackingNumber ((key.getD ""))) then
    ⟨403, db, reg, []⟩
  else
    match status with
    | none => ⟨400, db, reg, []⟩
    | some s =>
        if s == "" then ⟨400, db, reg, []⟩
        else if !(validStatuses.contains s) then ⟨400, db, reg, []⟩
        else
          let res1 := db.updateStatus now trackingNumber s
          if !res1.fst then ⟨404, res1.snd, reg, []⟩
          else if s == "Delivered" then
            match res1.snd.getTracking trackingNumber with
            | some t =>
                let res2 := res1.snd.addTrackRecord now rid t.id
                  trackingNumber "Delivered"
                let b1 := broadcastToTracking reg trackingNumber
                  "location-update" (.locationUpdate "Delivered" now res2.fst)
                let b2 := broadcastToTracking b1.fst trackingNumber
                  "status-change" (.statusChange s)
                ⟨200, res2.snd, b2.fst,
                  [("location-update", .locationUpdate "Delivered" now res2.fst),
                   ("status-change", .statusChange s)]⟩
            | none =>
                let b2 := broadcastToTracking reg trackingNumber
                  "status-change" (.statusChange s)
                ⟨200, res1.snd, b2.fst, [("status-change", .statusChange s)]⟩
          else
            let res2 := res1.snd.removeDeliveryRecords trackingNumber
            if res2.fst then
              let b1 := broadcastToTracking reg trackingNumber
                "delivery-removed" (.deliveryRemoved trackingNumber)
              let b2 := broadcastToTracking b1.fst trackingNumber
                "status-change" (.statusChange s)
              ⟨200, res2.snd, b2.fst,
                [("delivery-removed", .deliveryRemoved trackingNumber),
                 ("status-change", .statusChange s)]⟩
            else
              let b2 := broadcastToTracking reg trackingNumber
                "status-change" (.statusChange s)
              ⟨200, res2.snd, b2.fst, [("status-change", .statusChange s)]⟩

/-- The public GET tracking route: 404 with a descriptive body when the
record is absent, 200 otherwise. -/
def getPublicTracking (db : FileDB) (trackingNumber : String) :
    Nat × Option String :=
  match db.getTrackingWithRecords trackingNumber with
  | none => (404, some "Tracking number not found")
  | some _ => (200, none)

/-- The authenticated GET update route: the `verifyUpdateKey` middleware
runs first (401 without a key, 403 on a failed verification), then the
handler itself answers 404 when the record is absent and 200 otherwise. -/
def getUpdateTracking (db : FileDB) (trackingNumber : String)
    (key : Option String) : Nat × Option String :=
  if keyMissing key then (401, some "Update key required for this operation")
  else if !(db.verifyUpdateKey trackingNumber (key.getD "")) then
    (403, some "Invalid update key")
  else
    match db.getTrackingWithRecords trackingNumber with
    | none => (404, some "Tracking number not found")
    | some _ => (200, none)

/-- Count of `"Delivered"`-labeled events stored for a tracking number. -/
def FileDB.deliveredCount (db : FileDB) (trackingNumber : String) : Nat :=
  (db.getTrackRecords trackingNumber).countP
    (fun r => r.location == "Delivered")

/-! ### A replay of location-event appends, for the ordering invariant -/

/-- One `addTrackRecord` call with its oracle inputs. -/
structure AppendCall where
  now : Nat
  rid : Nat
  trackingId : Nat
  trackingNumber : String
  location : String
deriving Repr, DecidableEq

/-- Replays a sequence of `addTrackRecord` calls against the file store. -/
def appendAll (db : FileDB) : List AppendCall → FileDB
  | [] => db
  | a :: rest =>
      appendAll (db.addTrackRecord a.now a.rid a.trackingId
        a.trackingNumber a.location).2 rest

theorem appendAll_sorted_aux (script : List AppendCall) (db : FileDB) (c : Nat)
    (hdb : ∀ tn, ((db.getTrackRecords tn).map TrackRecord.timestamp).Sorted (· ≤ ·))
    (hub : ∀ tn, ∀ r ∈ db.getTrackRecords tn, r.timestamp ≤ c)
    (hch : List.Chain (· ≤ ·) c (script.map AppendCall.now)) :
    ∀ tn, (((appendAll db script).getTrackRecords tn).map
      TrackRecord.timestamp).Sorted (· ≤ ·) := by
  induction script generalizing db c with
  | nil => exact hdb
  | cons a rest ih =>
      simp only [List.map_cons, List.chain_cons] at hch
      obtain ⟨hca, hch⟩ := hch
      intro tn
      refine ih (db.addTrackRecord a.now a.rid a.trackingId
        a.trackingNumber a.location).2 a.now ?_ ?_ hch tn
      · intro tn'
        by_cases htn : tn' = a.trackingNumber
        · subst htn
          simp only [FileDB.addTrackRecord, FileDB.getTrackRecords,
            objLookup_insert_self, Option.getD_some, List.map_append]
          rw [List.Sorted, List.pairwise_append]
          refine ⟨hdb a.trackingNumber, by simp, ?_⟩
          intro x hx y hy
          simp only [List.map_cons, List.map_nil, List.mem_singleton] at hy
          subst hy
          obtain ⟨r, hr, hrx⟩ := List.mem_map.mp hx
          exact hrx ▸ le_trans (hub a.trackingNumber r hr) hca
        · simpa [FileDB.addTrackRecord, FileDB.getTrackRecords,
            objLookup_insert_ne _ _ _ _ htn] using hdb tn'
      · intro tn' r hr
        by_cases htn : tn' = a.trackingNumber
        · subst htn
          simp only [FileDB.addTrackRecord, FileDB.getTrackRecords,
            objLookup_insert_self, Option.getD_some, List.mem_append,
            List.mem_singleton] at hr
          rcases hr with hr | hr
          · exact le_trans (hub _ r hr) hca
          · subst hr; exact le_refl _
        · rw [FileDB.getTrackRecords] at hr
          simp only [FileDB.addTrackRecord,
            objLookup_insert_ne _ _ _ _ htn] at hr
          exact le_trans (hub tn' r hr) hca

/-! ### Claim C5 -/

/-- C5 counterexample: two file-backed appends whose clock decreases
(timestamps 5 then 3) leave `getTrackRecords` returning the insertion
order `[5, 3]`, which is not non-decreasing by timestamp — the file-backed
`getTrackRecords` never sorts. -/
theorem c5_counterexample :
    ¬ ((((((fileEmpty.addTrackRecord 5 1 1 "LOVE1234" "First stop").2).addTrackRecord
        3 2 1 "LOVE1234" "Second stop").2).getTrackRecords "LOVE1234").map
        TrackRecord.timestamp).Sorted (· ≤ ·) := by decide

/-- C5 (amended): the relational `getTrackRecords` always returns events
sorted non-decreasingly by timestamp; the file-backed `getTrackRecords`
returns the insertion order, which is non-decreasing by timestamp whenever
the appends' clock values are non-decreasing. -/
theorem c5_ordering (script : List AppendCall)
    (hmono : (script.map AppendCall.now).Sorted (· ≤ ·)) :
    (∀ (db : PgDB) (tn : String),
      ((db.getTrackRecords tn).map PgRecordRow.timestamp).Sorted (· ≤ ·)) ∧
    (∀ tn, (((appendAll fileEmpty script).getTrackRecords tn).map
      TrackRecord.timestamp).Sorted (· ≤ ·)) := by
  constructor
  · intro db tn
    have hs : (List.insertionSort rowLE
        (db.track_records.filter (fun r => r.tracking_number == tn))).Sorted rowLE :=
      List.sorted_insertionSort rowLE _
    rw [PgDB.getTrackRecords, List.Sorted, List.pairwise_map]
    exact hs.imp (fun h => h)
  · refine appendAll_sorted_aux script fileEmpty 0 ?_ ?_ ?_
    · intro tn; simp [fileEmpty, FileDB.getTrackRecords, objLookup]
    · intro tn r hr
      simp [fileEmpty, FileDB.getTrackRecords, objLookup] at hr
    · have : (0 :: script.map AppendCall.now).Pairwise (· ≤ ·) := by
        rw [List.pairwise_cons]
        exact ⟨fun x _ => Nat.zero_le x, hmono⟩
      exact List.chain'_iff_pairwise.mpr this

/-- C5 witness: the amended theorem applied to a concrete monotone script. -/
theorem c5_witness :
    (([⟨4, 1, 1, "LOVE1234", "First stop"⟩,
       ⟨9, 2, 1, "LOVE1234", "Second stop"⟩] :
        List AppendCall).map AppendCall.now).Sorted (· ≤ ·) ∧
    (∀ tn, (((appendAll fileEmpty
        [⟨4, 1, 1, "LOVE1234", "First stop"⟩,
         ⟨9, 2, 1, "LOVE1234", "Second stop"⟩]).getTrackRecords tn).map
        TrackRecord.timestamp).Sorted (· ≤ ·)) :=
  ⟨by decide,
    (c5_ordering [⟨4, 1, 1, "LOVE1234", "First stop"⟩,
      ⟨9, 2, 1, "LOVE1234", "Second stop"⟩] (by decide)).2⟩

/-! ### Claim C6 -/

/-- C6: in both store implementations, `verifyUpdateKey` on an absent
record returns `false` (it never raises), and on a present record returns
`true` exactly when the provided string equals the stored credential. -/
theorem c6_verifyUpdateKey_spec :
    (∀ (db : FileDB) (tn provided : String),
      (db.getTracking tn = none → db.verifyUpdateKey tn provided = false) ∧
      (∀ t, db.getTracking tn = some t →
        (db.verifyUpdateKey tn provided = true ↔ provided = t.update_key))) ∧
    (∀ (db : PgDB) (tn provided : String),
      (db.getTracking tn = none → db.verifyUpdateKey tn provided = false) ∧
      (∀ t, db.getTracking tn = some t →
        (db.verifyUpdateKey tn provided = true ↔ provided = t.update_key))) := by
  constructor
  · intro db tn provided
    constructor
    · intro h
      simp only [FileDB.verifyUpdateKey, h]
    · intro t ht
      simp only [FileDB.verifyUpdateKey, ht, beq_iff_eq]
      exact eq_comm
  · intro db tn provided
    constructor
    · intro h
      simp only [PgDB.verifyUpdateKey, h]
    · intro t ht
      simp only [PgDB.verifyUpdateKey, ht, beq_iff_eq]
      exact eq_comm

/-- C6 witness. -/
theorem c6_witness :
    FileDB.verifyUpdateKey fileEmpty "LOVE1234" "whatever" = false ∧
    PgDB.verifyUpdateKey pgEmpty "LOVE1234" "whatever" = false :=
  ⟨((c6_verifyUpdateKey_spec.1 fileEmpty "LOVE1234" "whatever").1 (by decide)),
   ((c6_verifyUpdateKey_spec.2 pgEmpty "LOVE1234" "whatever").1 (by decide))⟩

/-! ### Claim C10 -/

/-- C10: the file-backed `addTrackRecord` always succeeds, returning the
fresh event id and appending the event to the (possibly newly created)
list for the tracking number, with no referential check against the
trackings mapping; the relational `addTrackRecord` raises a foreign-key
violation when the given internal record id matches no stored record. -/
theorem c10_addTrackRecord_divergence :
    (∀ (db : FileDB) (now rid tid : Nat) (tn loc : String),
      (db.addTrackRecord now rid tid tn loc).fst = rid ∧
      (db.addTrackRecord now rid tid tn loc).snd.getTrackRecords tn =
        db.getTrackRecords tn ++
          [{ id := rid, tracking_id := tid, location := loc,
             timestamp := now }]) ∧
    (∀ (db : PgDB) (uuid : String) (now : Nat) (tid tn loc : String),
      (∀ r ∈ db.trackings, r.id ≠ tid) →
      db.addTrackRecord uuid now tid tn loc = .error .fkViolation) := by
  constructor
  · intro db now rid tid tn loc
    constructor
    · rfl
    · simp [FileDB.addTrackRecord, FileDB.getTrackRecords,
        objLookup_insert_self]
  · intro db uuid now tid tn loc h
    have hany : db.trackings.any (fun r => r.id == tid) = false := by
      rw [List.any_eq_false]
      intro r hr
      simpa using h r hr
    simp [PgDB.addTrackRecord, hany]

/-- C10 witness: appending to the empty file store succeeds with no record
present, while the empty relational store rejects the same insert. -/
theorem c10_witness :
    (fileEmpty.addTrackRecord 7 42 99 "GHOST123" "Nowhere").fst = 42 ∧
    (fileEmpty.addTrackRecord 7 42 99 "GHOST123" "Nowhere").snd.getTrackRecords
        "GHOST123" =
      [{ id := 42, tracking_id := 99, location := "Nowhere", timestamp := 7 }] ∧
    pgEmpty.addTrackRecord "uuid-1" 7 "id-99" "GHOST123" "Nowhere" =
      .error .fkViolation := by
  refine ⟨(c10_addTrackRecord_divergence.1 fileEmpty 7 42 99 "GHOST123" "Nowhere").1,
    ?_, c10_addTrackRecord_divergence.2 pgEmpty "uuid-1" 7 "id-99" "GHOST123"
      "Nowhere" (by decide)⟩
  have h := (c10_addTrackRecord_divergence.1 fileEmpty 7 42 99 "GHOST123"
    "Nowhere").2
  rw [h]
  simp [fileEmpty, FileDB.getTrackRecords, objLookup]

/-! ### Claim C7 -/

/-- C7 counterexample: a GET on the authenticated update view for an
identifier with no record, carrying some key, answers 403 (the credential
middleware rejects before the handler's 404 branch can run), not 404. -/
theorem c7_counterexample :
    fileEmpty.getTracking "UNKNOWN1" = none ∧
    getUpdateTracking fileEmpty "UNKNOWN1" (some "anykey") =
      (403, some "Invalid update key") ∧
    (getUpdateTracking fileEmpty "UNKNOWN1" (some "anykey")).fst ≠ 404 := by
  decide

/-- C7 (amended): for an identifier with no record, the public record view
returns 404 with a descriptive error body and never a 500; the
authenticated update view returns 401 when no key (or an empty key) is
supplied and 403 for any other key — never a 404 and never a 500, the
absent record being masked by credential verification. -/
theorem c7_missing_record_codes (db : FileDB) (tn : String)
    (h : db.getTracking tn = none) :
    getPublicTracking db tn = (404, some "Tracking number not found") ∧
    getUpdateTracking db tn none =
      (401, some "Update key required for this operation") ∧
    getUpdateTracking db tn (some "") =
      (401, some "Update key required for this operation") ∧
    (∀ k : String, k ≠ "" →
      getUpdateTracking db tn (some k) = (403, some "Invalid update key")) := by
  have hv : ∀ k, db.verifyUpdateKey tn k = false := by
    intro k; simp [FileDB.verifyUpdateKey, h]
  refine ⟨?_, ?_, ?_, ?_⟩
  · simp [getPublicTracking, FileDB.getTrackingWithRecords, h]
  · simp [getUpdateTracking, keyMissing]
  · simp [getUpdateTracking, keyMissing]
  · intro k hk
    simp [getUpdateTracking, keyMissing, hk, hv]

/-- C7 witness. -/
theorem c7_witness :
    fileEmpty.getTracking "UNKNOWN2" = none ∧
    getPublicTracking fileEmpty "UNKNOWN2" =
      (404, some "Tracking number not found") :=
  ⟨by decide, (c7_missing_record_codes fileEmpty "UNKNOWN2" (by decide)).1⟩

/-! ### Key-set lemmas for the file store -/

theorem objInsert_keys_of_none {α : Type} (m : List (String × α))
    (k : String) (v : α) (h : objLookup m k = none) :
    (objInsert m k v).map Prod.fst = m.map Prod.fst ++ [k] := by
  induction m with
  | nil => simp [objInsert]
  | cons p rest ih =>
      obtain ⟨k0, v0⟩ := p
      by_cases hk : k0 = k
      · rw [objLookup, if_pos hk] at h
        cases h
      · rw [objLookup, if_neg hk] at h
        simp [objInsert, hk, ih h]

theorem objInsert_keys_of_some {α : Type} (m : List (String × α))
    (k : String) (v : α) (h : objLookup m k ≠ none) :
    (objInsert m k v).map Prod.fst = m.map Prod.fst := by
  induction m with
  | nil => simp [objLookup] at h
  | cons p rest ih =>
      obtain ⟨k0, v0⟩ := p
      by_cases hk : k0 = k
      · simp [objInsert, hk]
      · rw [objLookup, if_neg hk] at h
        simp [objInsert, hk, ih h]

theorem objLookup_eq_none_iff {α : Type} (m : List (String × α)) (k : String) :
    objLookup m k = none ↔ k ∉ m.map Prod.fst := by
  induction m with
  | nil => simp [objLookup]
  | cons p rest ih =>
      obtain ⟨k0, v0⟩ := p
      by_cases hk : k0 = k
      · subst hk
        simp [objLookup]
      · simp [objLookup, hk, ih, Ne.symm hk]

/-! ### Identity projections -/

/-- The immutable identity of a file-store record: its identifier and
credential. -/
def trackIdentity (t : Tracking) : String × String :=
  (t.tracking_number, t.update_key)

/-- The immutable identity of a relational record. -/
def pgIdentity (t : PgTracking) : String × String :=
  (t.tracking_number, t.update_key)

theorem pg_getTracking_map (db : PgDB) (g : PgTracking → PgTracking)
    (hg : ∀ r, (g r).tracking_number = r.tracking_number) (tn : String) :
    (PgDB.mk (db.trackings.map g) db.track_records).getTracking tn =
      (db.getTracking tn).map g := by
  have hp : ((fun r : PgTracking => r.tracking_number == tn) ∘ g) =
      (fun r : PgTracking => r.tracking_number == tn) := by
    funext r
    simp [Function.comp, hg]
  simp only [PgDB.getTracking, List.find?_map, hp]

/-! ### Claim C9 -/

/-- C9 counterexample: a second file-backed `createTracking` under the same
identifier silently replaces the record, regenerating its credential —
`update_key` changes from `"key-one"` to `"key-two"`. -/
theorem c9_counterexample :
    ((fileEmpty.createTracking 1 "LOVE1234" "Love Express" "Her Heart"
        "2024-02-14" "key-one" "Europe/Zurich" "en-CH").2.getTracking
        "LOVE1234").map Tracking.update_key = some "key-one" ∧
    (((fileEmpty.createTracking 1 "LOVE1234" "Love Express" "Her Heart"
        "2024-02-14" "key-one" "Europe/Zurich" "en-CH").2.createTracking 2
        "LOVE1234" "Love Express" "Her Heart" "2024-02-14" "key-two"
        "Europe/Zurich" "en-CH").2.getTracking "LOVE1234").map
        Tracking.update_key = some "key-two" ∧
    some "key-two" ≠ some "key-one" := by decide

/-- C9 (amended): identifier and credential are immutable under every
update, append and removal operation of both backends; the relational
backend's unique constraint makes a duplicate `createTracking` fail, so the
identifier stays globally unique and the credential intact there; the
file-backed mapping keeps identifiers unique as keys, but a file-backed
`createTracking` under an existing identifier replaces the whole record,
credential included. -/
theorem c9_identity_immutability :
    (∀ (db : FileDB) (now : Nat) (tn x tn' : String),
      ((db.updateEta now tn x).2.getTracking tn').map trackIdentity =
        (db.getTracking tn').map trackIdentity ∧
      ((db.updateStatus now tn x).2.getTracking tn').map trackIdentity =
        (db.getTracking tn').map trackIdentity ∧
      ((db.updateDestination now tn x).2.getTracking tn').map trackIdentity =
        (db.getTracking tn').map trackIdentity) ∧
    (∀ (db : FileDB) (now rid tid : Nat) (tn loc tn' : String),
      (db.addTrackRecord now rid tid tn loc).2.getTracking tn' =
        db.getTracking tn') ∧
    (∀ (db : FileDB) (tn tn' : String),
      (db.removeDeliveryRecords tn).2.getTracking tn' = db.getTracking tn') ∧
    (∀ (db : PgDB) (now : Nat) (tn x tn' : String),
      ((db.updateEta now tn x).2.getTracking tn').map pgIdentity =
        (db.getTracking tn').map pgIdentity ∧
      ((db.updateStatus now tn x).2.getTracking tn').map pgIdentity =
        (db.getTracking tn').map pgIdentity ∧
      ((db.updateDestination now tn x).2.getTracking tn').map pgIdentity =
        (db.getTracking tn').map pgIdentity) ∧
    (∀ (db : PgDB) (uuid : String) (now : Nat) (tid tn loc tn' : String)
      (res : String × PgDB), db.addTrackRecord uuid now tid tn loc = .ok res →
      res.2.getTracking tn' = db.getTracking tn') ∧
    (∀ (db : PgDB) (tn tn' : String),
      (db.removeDeliveryRecords tn).2.getTracking tn' = db.getTracking tn') ∧
    (∀ (db : PgDB) (uuid : String) (now : Nat) (tn kp dest eta key : String),
      db.getTracking tn ≠ none →
      db.createTracking uuid now tn kp dest eta key = .error .uniqueViolation) ∧
    (∀ (db : FileDB) (now : Nat) (tn kp dest eta key tz lc : String),
      ((db.createTracking now tn kp dest eta key tz lc).2.getTracking tn).map
        Tracking.update_key = some key) ∧
    (∀ (db : FileDB) (now : Nat) (tn kp dest eta key tz lc : String),
      (db.trackings.map Prod.fst).Nodup →
      ((db.createTracking now tn kp dest eta key tz lc).2.trackings.map
        Prod.fst).Nodup) := by
  refine ⟨?_, ?_, ?_, ?_, ?_, ?_, ?_, ?_, ?_⟩
  · intro db now tn x tn'
    refine ⟨?_, ?_, ?_⟩ <;>
    · first
      | (simp only [FileDB.updateEta]
         cases h : objLookup db.trackings tn with
         | none => rfl
         | some t =>
             by_cases htn : tn' = tn
             · subst htn
               simp [FileDB.getTracking, objLookup_insert_self, h,
                 trackIdentity]
             · simp [FileDB.getTracking, objLookup_insert_ne _ _ _ _ htn])
      | (simp only [FileDB.updateStatus]
         cases h : objLookup db.trackings tn with
         | none => rfl
         | some t =>
             by_cases htn : tn' = tn
             · subst htn
               simp [FileDB.getTracking, objLookup_insert_self, h,
                 trackIdentity]
             · simp [FileDB.getTracking, objLookup_insert_ne _ _ _ _ htn])
      | (simp only [FileDB.updateDestination]
         cases h : objLookup db.trackings tn with
         | none => rfl
         | some t =>
             by_cases htn : tn' = tn
             · subst htn
               simp [FileDB.getTracking, objLookup_insert_self, h,
                 trackIdentity]
             · simp [FileDB.getTracking, objLookup_insert_ne _ _ _ _ htn])
  · intro db now rid tid tn loc tn'
    rfl
  · intro db tn tn'
    simp only [FileDB.removeDeliveryRecords]
    cases h : objLookup db.track_records tn with
    | none => rfl
    | some recs =>
        by_cases hrem : recs.length =
          (recs.filter (fun r => !(r.location == "Delivered"))).length
        · simp [hrem]
        · simp [hrem, FileDB.getTracking]
  · intro db now tn x tn'
    refine ⟨?_, ?_, ?_⟩
    · have hm := pg_getTracking_map db
        (fun r => if r.tracking_number == tn then
          { r with eta := x, updated_at := now } else r)
        (fun r => by by_cases h : r.tracking_number == tn <;> simp [h]) tn'
      simp only [PgDB.updateEta]
      rw [hm]
      cases db.getTracking tn' with
      | none => rfl
      | some t =>
          by_cases h : t.tracking_number = tn <;> simp [pgIdentity, h]
    · have hm := pg_getTracking_map db
        (fun r => if r.tracking_number == tn then
          { r with status := x, updated_at := now } else r)
        (fun r => by by_cases h : r.tracking_number == tn <;> simp [h]) tn'
      simp only [PgDB.updateStatus]
      rw [hm]
      cases db.getTracking tn' with
      | none => rfl
      | some t =>
          by_cases h : t.tracking_number = tn <;> simp [pgIdentity, h]
    · have hm := pg_getTracking_map db
        (fun r => if r.tracking_number == tn then
          { r with destination := x, updated_at := now } else r)
        (fun r => by by_cases h : r.tracking_number == tn <;> simp [h]) tn'
      simp only [PgDB.updateDestination]
      rw [hm]
      cases db.getTracking tn' with
      | none => rfl
      | some t =>
          by_cases h : t.tracking_number = tn <;> simp [pgIdentity, h]
  · intro db uuid now tid tn loc tn' res hres
    simp only [PgDB.addTrackRecord] at hres
    by_cases h : db.trackings.any (fun r => r.id == tid)
    · simp only [h, if_true] at hres
      cases hres
      rfl
    · simp [h] at hres
  · intro db tn tn'
    rfl
  · intro db uuid now tn kp dest eta key h
    have : db.trackings.any
        (fun r => r.tracking_number == tn) = true := by
      rcases ho : db.getTracking tn with _ | t
      · exact absurd ho h
      · rw [List.any_eq_true]
        exact ⟨t, List.mem_of_find?_eq_some ho, by
          have := List.find?_some ho
          simpa using this⟩
    simp [PgDB.createTracking, this]
  · intro db now tn kp dest eta key tz lc
    simp [FileDB.createTracking, FileDB.getTracking, objLookup_insert_self]
  · intro db now tn kp dest eta key tz lc hnd
    simp only [FileDB.createTracking]
    by_cases h : objLookup db.trackings tn = none
    · rw [objInsert_keys_of_none _ _ _ h, List.nodup_append]
      refine ⟨hnd, List.nodup_singleton tn, ?_⟩
      intro a ha hb
      simp only [List.mem_singleton] at hb
      subst hb
      exact (objLookup_eq_none_iff _ _).mp h ha
    · rw [objInsert_keys_of_some _ _ _ h]
      exact hnd

/-- Sample relational state used by witnesses. -/
def samplePgTracking : PgTracking :=
  { id := "u1", tracking_number := "LOVE1234", kiss_provider := "Love Express",
    destination := "Her Heart", eta := "2024-02-14", status := "Preparing",
    update_key := "secret", creator_timezone := "Europe/Zurich",
    creator_locale := "en-CH", created_at := 1, updated_at := 1 }

def samplePgDb : PgDB := ⟨[samplePgTracking], []⟩

/-- C9 witness: the immutability theorem applied at concrete stores. -/
theorem c9_witness :
    (((fileEmpty.createTracking 1 "LOVE1234" "Love Express" "Her Heart"
        "2024-02-14" "secret" "Europe/Zurich" "en-CH").2.trackings.map
        Prod.fst).Nodup) ∧
    samplePgDb.createTracking "u2" 2 "LOVE1234" "Other" "Other" "2024-03-01"
        "other-secret" = .error .uniqueViolation :=
  ⟨c9_identity_immutability.2.2.2.2.2.2.2.2 fileEmpty 1 "LOVE1234"
      "Love Express" "Her Heart" "2024-02-14" "secret" "Europe/Zurich"
      "en-CH" (by decide),
    c9_identity_immutability.2.2.2.2.2.2.1 samplePgDb "u2" 2 "LOVE1234"
      "Other" "Other" "2024-03-01" "other-secret" (by decide)⟩

/-! ### Counting and filtering lemmas -/

theorem length_filter_lt_of_any {α : Type} (p : α → Bool) (l : List α)
    (h : l.any p = true) :
    (l.filter (fun a => !(p a))).length < l.length := by
  induction l with
  | nil => simp at h
  | cons a rest ih =>
      by_cases hpa : p a = true
      · simp only [List.filter_cons, hpa, Bool.not_true, List.length_cons]
        exact Nat.lt_succ_of_le (List.length_filter_le _ _)
      · simp only [Bool.not_eq_true] at hpa
        simp only [List.any_cons, hpa, Bool.false_or] at h
        simp only [List.filter_cons, hpa, Bool.not_false, List.length_cons]
        exact Nat.succ_lt_succ (ih h)

theorem filter_eq_self_of_not_any {α : Type} (p : α → Bool) (l : List α)
    (h : l.any p = false) :
    l.filter (fun a => !(p a)) = l := by
  refine List.filter_eq_self.mpr ?_
  intro a ha
  rw [List.any_eq_false] at h
  simpa using h a ha

/-! ### Characterization of one successful `Delivered` status request -/

theorem putStatus_delivered (db : FileDB) (reg : SseRegistry) (tn key : String)
    (now rid : Nat) (t : Tracking) (hrec : db.getTracking tn = some t)
    (hkey : t.update_key = key) (hk : key ≠ "") :
    (putStatus db reg tn (some key) (some "Delivered") now rid).code = 200 ∧
    (putStatus db reg tn (some key) (some "Delivered") now rid).db.getTracking
        tn = some { t with status := "Delivered", updated_at := now } ∧
    (putStatus db reg tn (some key) (some "Delivered") now
        rid).db.getTrackRecords tn =
      db.getTrackRecords tn ++
        [{ id := rid, tracking_id := t.id, location := "Delivered",
           timestamp := now }] ∧
    (putStatus db reg tn (some key) (some "Delivered") now rid).broadcasts =
      [("location-update", .locationUpdate "Delivered" now rid),
       ("status-change", .statusChange "Delivered")] := by
  have hrec' : objLookup db.trackings tn = some t := hrec
  refine ⟨?_, ?_, ?_, ?_⟩ <;>
    simp [putStatus, keyMissing, hk, FileDB.verifyUpdateKey, hrec, hkey,
      FileDB.updateStatus, hrec', FileDB.getTracking, objLookup_insert_self,
      FileDB.addTrackRecord, FileDB.getTrackRecords, validStatuses]

/-! ### Claim C1 -/

/-- Sample file-backed state used by counterexamples and witnesses: one
record `"LOVE1234"` with credential `"secretkey1234567"` and no events. -/
def sampleFileDb : FileDB :=
  (fileEmpty.createTracking 10 "LOVE1234" "Love Express" "Her Heart"
    "2024-02-14" "secretkey1234567" "Europe/Zurich" "en-CH").2

/-- The record stored in `sampleFileDb`. -/
def sampleTracking : Tracking :=
  { id := 10, tracking_number := "LOVE1234", kiss_provider := "Love Express",
    destination := "Her Heart", eta := "2024-02-14", status := "Preparing",
    update_key := "secretkey1234567", creator_timezone := "Europe/Zurich",
    creator_locale := "en-CH", created_at := 10, updated_at := 10 }

/-- C1 counterexample: two consecutive successful `Delivered` status
requests both answer 200, but the store then holds two `"Delivered"`-labeled
events, not one — the Delivered branch appends unconditionally, with no
idempotence guard. -/
theorem c1_counterexample :
    (putStatus sampleFileDb [] "LOVE1234" (some "secretkey1234567")
      (some "Delivered") 20 1).code = 200 ∧
    (putStatus (putStatus sampleFileDb [] "LOVE1234" (some "secretkey1234567")
        (some "Delivered") 20 1).db
      (putStatus sampleFileDb [] "LOVE1234" (some "secretkey1234567")
        (some "Delivered") 20 1).reg
      "LOVE1234" (some "secretkey1234567") (some "Delivered") 30 2).code =
      200 ∧
    (putStatus (putStatus sampleFileDb [] "LOVE1234" (some "secretkey1234567")
        (some "Delivered") 20 1).db
      (putStatus sampleFileDb [] "LOVE1234" (some "secretkey1234567")
        (some "Delivered") 20 1).reg
      "LOVE1234" (some "secretkey1234567") (some "Delivered") 30
        2).db.deliveredCount "LOVE1234" = 2 ∧
    (putStatus (putStatus sampleFileDb [] "LOVE1234" (some "secretkey1234567")
        (some "Delivered") 20 1).db
      (putStatus sampleFileDb [] "LOVE1234" (some "secretkey1234567")
        (some "Delivered") 20 1).reg
      "LOVE1234" (some "secretkey1234567") (some "Delivered") 30
        2).db.deliveredCount "LOVE1234" ≠ 1 := by decide

/-- C1 (amended): for a stored record with a valid credential, every
successful `PUT status` with `"Delivered"` returns 200 and appends exactly
one `"Delivered"`-labeled event — unconditionally, so two consecutive such
requests both succeed and leave exactly two `"Delivered"` events, one per
call, not one: the append is per-request, not guarded by the transition. -/
theorem c1_delivered_append_per_request (db : FileDB) (reg : SseRegistry)
    (tn key : String) (now1 rid1 now2 rid2 : Nat) (t : Tracking)
    (hrec : db.getTracking tn = some t) (hkey : t.update_key = key)
    (hk : key ≠ "") :
    (putStatus db reg tn (some key) (some "Delivered") now1 rid1).code =
      200 ∧
    (putStatus db reg tn (some key) (some "Delivered") now1
        rid1).db.deliveredCount tn = db.deliveredCount tn + 1 ∧
    (putStatus (putStatus db reg tn (some key) (some "Delivered") now1
        rid1).db
      (putStatus db reg tn (some key) (some "Delivered") now1 rid1).reg
      tn (some key) (some "Delivered") now2 rid2).code = 200 ∧
    (putStatus (putStatus db reg tn (some key) (some "Delivered") now1
        rid1).db
      (putStatus db reg tn (some key) (some "Delivered") now1 rid1).reg
      tn (some key) (some "Delivered") now2 rid2).db.deliveredCount tn =
      db.deliveredCount tn + 2 := by
  obtain ⟨h1c, h1g, h1l, h1b⟩ :=
    putStatus_delivered db reg tn key now1 rid1 t hrec hkey hk
  obtain ⟨h2c, h2g, h2l, h2b⟩ :=
    putStatus_delivered
      (putStatus db reg tn (some key) (some "Delivered") now1 rid1).db
      (putStatus db reg tn (some key) (some "Delivered") now1 rid1).reg
      tn key now2 rid2 _ h1g (by simpa using hkey) hk
  refine ⟨h1c, ?_, h2c, ?_⟩
  · simp [FileDB.deliveredCount, h1l, List.countP_append]
  · simp [FileDB.deliveredCount, h2l, h1l, List.countP_append]

/-- C1 witness. -/
theorem c1_witness :
    (putStatus sampleFileDb [] "LOVE1234" (some "secretkey1234567")
      (some "Delivered") 20 1).code = 200 ∧
    (putStatus sampleFileDb [] "LOVE1234" (some "secretkey1234567")
      (some "Delivered") 20 1).db.deliveredCount "LOVE1234" =
      sampleFileDb.deliveredCount "LOVE1234" + 1 := by
  have h := c1_delivered_append_per_request sampleFileDb [] "LOVE1234"
    "secretkey1234567" 20 1 30 2 sampleTracking (by decide) (by decide)
    (by decide)
  exact ⟨h.1, h.2.1⟩

/-! ### Claim C2 -/

/-- C2: for a stored record with a valid credential, a status update to any
valid non-`Delivered` value answers 200, leaves the event list filtered of
exactly the `"Delivered"`-labeled events, broadcasts a delivery-removed
event followed by the status-change event when at least one `"Delivered"`
event existed and only the status-change event otherwise; and
`removeDeliveryRecords` on an identifier with zero `"Delivered"` events
returns `false` and leaves the store unchanged. -/
theorem c2_transition_away_spec (db : FileDB) (reg : SseRegistry)
    (tn key s : String) (now rid : Nat) (t : Tracking)
    (hrec : db.getTracking tn = some t) (hkey : t.update_key = key)
    (hk : key ≠ "") (hs : s ∈ validStatuses) (hsd : s ≠ "Delivered") :
    (putStatus db reg tn (some key) (some s) now rid).code = 200 ∧
    (putStatus db reg tn (some key) (some s) now rid).db.getTrackRecords tn =
      (db.getTrackRecords tn).filter (fun e => !(e.location == "Delivered")) ∧
    ((putStatus db reg tn (some key) (some s) now rid).broadcasts =
      if (db.getTrackRecords tn).any (fun e => e.location == "Delivered")
      then [("delivery-removed", EventData.deliveryRemoved tn),
            ("status-change", EventData.statusChange s)]
      else [("status-change", EventData.statusChange s)]) ∧
    (∀ (db' : FileDB) (tn' : String),
      (db'.getTrackRecords tn').any (fun e => e.location == "Delivered") =
        false →
      db'.removeDeliveryRecords tn' = (false, db')) := by
  have hrec' : objLookup db.trackings tn = some t := hrec
  have hcont : validStatuses.contains s = true := List.elem_eq_true_of_mem hs
  have hsne : s ≠ "" := by
    rintro rfl
    simp [validStatuses] at hs
  have hrm : ∀ (db' : FileDB) (tn' : String),
      (db'.getTrackRecords tn').any (fun e => e.location == "Delivered") =
        false →
      db'.removeDeliveryRecords tn' = (false, db') := by
    intro db' tn' h
    rw [FileDB.removeDeliveryRecords]
    cases hl' : objLookup db'.track_records tn' with
    | none => rfl
    | some recs =>
        rw [FileDB.getTrackRecords, hl', Option.getD_some] at h
        have hfe := filter_eq_self_of_not_any _ _ h
        simp [hfe]
  refine ⟨?_, ?_, ?_, hrm⟩ <;>
    cases hl : objLookup db.track_records tn with
  | none =>
      simp [putStatus, keyMissing, hk, FileDB.verifyUpdateKey, hrec, hkey,
        FileDB.updateStatus, hrec', hcont, hs, hsd, hsne,
        FileDB.removeDeliveryRecords, FileDB.getTrackRecords, hl]
  | some recs =>
      by_cases hany : recs.any (fun e => e.location == "Delivered") = true
      · have hne : recs.length ≠
            (recs.filter (fun r => !(r.location == "Delivered"))).length :=
          Ne.symm (Nat.ne_of_lt (length_filter_lt_of_any _ _ hany))
        simp [putStatus, keyMissing, hk, FileDB.verifyUpdateKey, hrec, hkey,
          FileDB.updateStatus, hrec', hcont, hs, hsd, hsne,
          FileDB.removeDeliveryRecords, FileDB.getTrackRecords, hl, hne,
          hany, objLookup_insert_self]
      · simp only [Bool.not_eq_true] at hany
        have hfe : recs.filter (fun r => !(r.location == "Delivered")) =
            recs := filter_eq_self_of_not_any _ _ hany
        simp [putStatus, keyMissing, hk, FileDB.verifyUpdateKey, hrec, hkey,
          FileDB.updateStatus, hrec', hcont, hs, hsd, hsne,
          FileDB.removeDeliveryRecords, FileDB.getTrackRecords, hl, hfe,
          hany]

/-- C2 witness. -/
theorem c2_witness :
    (putStatus sampleFileDb [] "LOVE1234" (some "secretkey1234567")
      (some "In Transit") 20 1).code = 200 ∧
    sampleFileDb.removeDeliveryRecords "LOVE1234" = (false, sampleFileDb) := by
  have h := c2_transition_away_spec sampleFileDb [] "LOVE1234"
    "secretkey1234567" "In Transit" 20 1 sampleTracking (by decide)
    (by decide) (by decide) (by decide) (by decide)
  exact ⟨h.1, h.2.2.2 sampleFileDb "LOVE1234" (by decide)⟩

/-! ### Broadcast lemmas -/

theorem broadcast_snd (reg : SseRegistry) (tn eventType : String)
    (d : EventData) :
    (broadcastToTracking reg tn eventType d).snd =
      (((objLookup reg tn).getD []).filter clientKept).map
        (fun c => (c.cid, frameMessage eventType (stringifyData d))) := by
  rw [broadcastToTracking]
  cases h : objLookup reg tn with
  | none => simp
  | some clients =>
      simp only [Option.getD_some]
      split <;> rfl

theorem broadcast_fst_other (reg : SseRegistry) (tn eventType : String)
    (d : EventData) (tn' : String) (h : tn' ≠ tn) :
    objLookup (broadcastToTracking reg tn eventType d).fst tn' =
      objLookup reg tn' := by
  rw [broadcastToTracking]
  cases hl : objLookup reg tn with
  | none => rfl
  | some clients =>
      simp only [Option.getD_some]
      split
      · exact objLookup_insert_ne _ _ _ _ h
      · exact objLookup_erase_ne _ _ _ h

theorem broadcast_fst_self_kept (reg : SseRegistry) (tn eventType : String)
    (d : EventData) :
    ∀ c ∈ (objLookup (broadcastToTracking reg tn eventType d).fst tn).getD [],
      clientKept c = true := by
  intro c hc
  rw [broadcastToTracking] at hc
  cases hl : objLookup reg tn with
  | none =>
      rw [hl] at hc
      simp only [hl, Option.getD_none] at hc
      cases hc
  | some clients =>
      rw [hl] at hc
      simp only [Option.getD_some] at hc
      rcases Nat.lt_or_ge 0 (clients.filter clientKept).length with hpos | hz
      · rw [if_pos hpos, objLookup_insert_self, Option.getD_some] at hc
        exact List.of_mem_filter hc
      · have hz' : ¬ (clients.filter clientKept).length > 0 := by omega
        rw [if_neg hz', objLookup_erase_self, Option.getD_none] at hc
        cases hc

/-! ### Claim C3 -/

/-- C3: a broadcast delivers the framed message to every registered
writable handle of the tracking number whose write does not throw; every
delivery goes to such a handle of that tracking number and to nobody
registered under any other identifier; handles that are unwritable or whose
write throws are excluded from the registry going forward; and one handle's
failure does not prevent delivery to the remaining handles of the same
broadcast.  The hypothesis that registered handles have sent their headers
holds for every handle the SSE route registers, since subscription starts
with `writeHead` and the `connected` frame. -/
theorem c3_broadcast_spec (reg : SseRegistry) (tn eventType : String)
    (d : EventData)
    (hh : ∀ c ∈ (objLookup reg tn).getD [], c.headersSent = true) :
    (∀ c ∈ (objLookup reg tn).getD [], c.writable = true →
      c.writeFails = false →
      (c.cid, frameMessage eventType (stringifyData d)) ∈
        (broadcastToTracking reg tn eventType d).snd) ∧
    (∀ p ∈ (broadcastToTracking reg tn eventType d).snd,
      p.snd = frameMessage eventType (stringifyData d) ∧
      ∃ c ∈ (objLookup reg tn).getD [], c.cid = p.fst ∧ c.writable = true ∧
        c.writeFails = false) ∧
    (∀ tn', tn' ≠ tn →
      objLookup (broadcastToTracking reg tn eventType d).fst tn' =
        objLookup reg tn') ∧
    (∀ c ∈ (objLookup reg tn).getD [],
      c.writable = false ∨ c.writeFails = true →
      c ∉ (objLookup (broadcastToTracking reg tn eventType d).fst
        tn).getD []) := by
  refine ⟨?_, ?_, fun tn' h => broadcast_fst_other reg tn eventType d tn' h,
    ?_⟩
  · intro c hc hw hf
    rw [broadcast_snd]
    have hkept : clientKept c = true := by
      simp [clientKept, hh c hc, hw, hf]
    exact List.mem_map.mpr ⟨c, List.mem_filter.mpr ⟨hc, hkept⟩, rfl⟩
  · intro p hp
    rw [broadcast_snd] at hp
    obtain ⟨c, hc, hcp⟩ := List.mem_map.mp hp
    obtain ⟨hcm, hck⟩ := List.mem_filter.mp hc
    have hhs := hh c hcm
    have hwf : c.writable = true ∧ c.writeFails = false := by
      simp [clientKept, hhs] at hck
      exact hck
    subst hcp
    exact ⟨rfl, c, hcm, rfl, hwf.1, hwf.2⟩
  · intro c hc hbad hmem
    have hkept := broadcast_fst_self_kept reg tn eventType d c hmem
    have hhs := hh c hc
    rcases hbad with hw | hf
    · simp [clientKept, hhs, hw] at hkept
    · simp [clientKept, hhs, hf] at hkept

/-- Sample registry for the broadcast witness: under `"LOVE1234"` one
healthy handle, one unwritable handle and one handle whose write throws;
one healthy handle under another tracking number. -/
def sampleRegistry : SseRegistry :=
  [("LOVE1234", [⟨1, true, true, false⟩, ⟨2, true, false, false⟩,
    ⟨3, true, true, true⟩]),
   ("OTHER567", [⟨4, true, true, false⟩])]

/-- C3 witness. -/
theorem c3_witness :
    (∀ c ∈ (objLookup sampleRegistry "LOVE1234").getD [],
      c.headersSent = true) ∧
    ((1 : Nat), frameMessage "status-change"
        (stringifyData (.statusChange "Delayed"))) ∈
      (broadcastToTracking sampleRegistry "LOVE1234" "status-change"
        (.statusChange "Delayed")).snd := by
  refine ⟨by decide, ?_⟩
  exact (c3_broadcast_spec sampleRegistry "LOVE1234" "status-change"
    (.statusChange "Delayed") (by decide)).1
    ⟨1, true, true, false⟩ (by decide) rfl rfl

/-! ### The database-loader initialization gate (`db_loader.js`:
`initializeDatabase`, `dbPromise`, `createWrappedFunction`)

`initializeDatabase` runs once and assigns the backend; every exported
operation is wrapped as `async (...args) => { await dbPromise; ...
db[methodName](...args) }`, so a call's dispatch step is enabled only once
the promise has resolved.  The interleaving of callers and the
initialization is modelled as a small transition system. -/

/-- Which backend `initializeDatabase` binds. -/
inductive Backend where
  | postgresql
  | json
deriving Repr, DecidableEq

/-- The selection `initializeDatabase` makes: Postgres exactly when
`DATABASE_URL` is present and `init()` plus the `getAllTrackings()` probe
succeed, the JSON file store otherwise. -/
def selectBackend (hasDatabaseUrl pgProbeOk : Bool) : Backend :=
  if hasDatabaseUrl && pgProbeOk then .postgresql else .json

/-- The loader's state: the `db`/`dbType` binding (`none` until
`dbPromise` resolves), the calls issued so far, and the calls that have
dispatched, each with the backend it executed against. -/
structure LoaderState where
  selected : Option Backend
  issued : List Nat
  dispatched : List (Nat × Backend)
deriving Repr, DecidableEq

def loaderInit : LoaderState := ⟨none, [], []⟩

/-- One step of the loader system: a caller issues a wrapped call at any
time; `initializeDatabase` completes once, resolving `dbPromise`; and an
issued call's body runs only when `await dbPromise` can complete, reading
the then-current `db` binding. -/
inductive LoaderStep (hasDatabaseUrl pgProbeOk : Bool) :
    LoaderState → LoaderState → Prop where
  | issue (s : LoaderState) (c : Nat) :
      LoaderStep hasDatabaseUrl pgProbeOk s
        { s with issued := s.issued ++ [c] }
  | initDone (s : LoaderState) (h : s.selected = none) :
      LoaderStep hasDatabaseUrl pgProbeOk s
        { s with selected := some (selectBackend hasDatabaseUrl pgProbeOk) }
  | dispatch (s : LoaderState) (c : Nat) (b : Backend) (hc : c ∈ s.issued)
      (hb : s.selected = some b) :
      LoaderStep hasDatabaseUrl pgProbeOk s
        { s with dispatched := s.dispatched ++ [(c, b)] }

/-- The states reachable from the loader's start state. -/
inductive LoaderReaches (hasDatabaseUrl pgProbeOk : Bool) :
    LoaderState → Prop where
  | start : LoaderReaches hasDatabaseUrl pgProbeOk loaderInit
  | step (s s' : LoaderState) (hr : LoaderReaches hasDatabaseUrl pgProbeOk s)
      (hs : LoaderStep hasDatabaseUrl pgProbeOk s s') :
      LoaderReaches hasDatabaseUrl pgProbeOk s'

theorem loader_invariant (hasDatabaseUrl pgProbeOk : Bool) (s : LoaderState)
    (hr : LoaderReaches hasDatabaseUrl pgProbeOk s) :
    (s.selected = none ∨
      s.selected = some (selectBackend hasDatabaseUrl pgProbeOk)) ∧
    (∀ cb ∈ s.dispatched,
      cb.2 = selectBackend hasDatabaseUrl pgProbeOk ∧ s.selected ≠ none) := by
  induction hr with
  | start => exact ⟨Or.inl rfl, by simp [loaderInit]⟩
  | step s s' hr hs ih =>
      cases hs with
      | issue c => exact ih
      | initDone h =>
          refine ⟨Or.inr rfl, ?_⟩
          intro cb hcb
          exact ⟨(ih.2 cb hcb).1, by simp⟩
      | dispatch c b hc hb =>
          have hbsel : b = selectBackend hasDatabaseUrl pgProbeOk := by
            rcases ih.1 with h0 | h0
            · rw [h0] at hb
              cases hb
            · rw [h0] at hb
              exact (Option.some.inj hb).symm
          refine ⟨ih.1, ?_⟩
          intro cb hcb
          rcases List.mem_append.mp hcb with hm | hm
          · exact ⟨(ih.2 cb hm).1, (ih.2 cb hm).2⟩
          · rcases List.mem_singleton.mp hm with rfl
            exact ⟨hbsel, by rw [hb]; exact Option.some_ne_none b⟩

/-! ### Claim C8 -/

/-- C8: in every reachable state of the loader, every dispatched call ran
against the backend selected by `initializeDatabase`, and its dispatch
could only happen after selection completed (the gate was open): no call
executes against a backend before backend selection completes. -/
theorem c8_gate_dispatch_after_selection (hasDatabaseUrl pgProbeOk : Bool)
    (s : LoaderState) (hr : LoaderReaches hasDatabaseUrl pgProbeOk s)
    (c : Nat) (b : Backend) (hm : (c, b) ∈ s.dispatched) :
    s.selected = some (selectBackend hasDatabaseUrl pgProbeOk) ∧
    b = selectBackend hasDatabaseUrl pgProbeOk := by
  have hinv := loader_invariant hasDatabaseUrl pgProbeOk s hr
  have hb := hinv.2 (c, b) hm
  rcases hinv.1 with h0 | h0
  · exact absurd h0 hb.2
  · exact ⟨h0, hb.1⟩

/-- The end state of a concrete loader trace: issue call 0, complete
initialization with Postgres available, then dispatch call 0. -/
def loaderTraceEnd : LoaderState :=
  { selected := some Backend.postgresql, issued := [0],
    dispatched := [(0, Backend.postgresql)] }

/-- C8 witness: the gate theorem applied to that concrete trace. -/
theorem c8_witness :
    LoaderReaches true true loaderTraceEnd ∧
    loaderTraceEnd.selected = some (selectBackend true true) := by
  have h1 : LoaderReaches true true ⟨none, [0], []⟩ :=
    .step loaderInit _ .start (.issue loaderInit 0)
  have h2 : LoaderReaches true true ⟨some Backend.postgresql, [0], []⟩ :=
    .step _ _ h1 (.initDone _ rfl)
  have h3 : LoaderReaches true true loaderTraceEnd :=
    .step _ _ h2 (.dispatch _ 0 Backend.postgresql (by simp) rfl)
  exact ⟨h3, (c8_gate_dispatch_after_selection true true loaderTraceEnd h3 0
    Backend.postgresql (by simp [loaderTraceEnd])).1⟩

/-! ### The record-store contract, run against both backends

To compare the two implementations, a store operation script is executed
against each.  The observation of a result abstracts exactly the
representation of generated internal identifiers (the file backend derives
them from the clock, the relational one uses UUIDs); everything else —
success or failure, booleans, every record field, event labels and
timestamps, and the order of returned event lists — is compared as is.
`appendLocationEvent` is taken at the handler level (look the record up,
then append with its internal id), which is the only way the server ever
calls it. -/

/-- A tracking record, internal-id representation abstracted. -/
structure AbsTracking where
  tracking_number : String
  kiss_provider : String
  destination : String
  eta : String
  status : String
  update_key : String
  creator_timezone : String
  creator_locale : String
  created_at : Nat
  updated_at : Nat
deriving Repr, DecidableEq

/-- A location event, internal ids abstracted. -/
structure AbsRecord where
  location : String
  timestamp : Nat
deriving Repr, DecidableEq

def absFileTracking (t : Tracking) : AbsTracking :=
  { tracking_number := t.tracking_number, kiss_provider := t.kiss_provider,
    destination := t.destination, eta := t.eta, status := t.status,
    update_key := t.update_key, creator_timezone := t.creator_timezone,
    creator_locale := t.creator_locale, created_at := t.created_at,
    updated_at := t.updated_at }

def absPgTracking (t : PgTracking) : AbsTracking :=
  { tracking_number := t.tracking_number, kiss_provider := t.kiss_provider,
    destination := t.destination, eta := t.eta, status := t.status,
    update_key := t.update_key, creator_timezone := t.creator_timezone,
    creator_locale := t.creator_locale, created_at := t.created_at,
    updated_at := t.updated_at }

def absFileRecord (r : TrackRecord) : AbsRecord :=
  { location := r.location, timestamp := r.timestamp }

def absPgRecord (r : PgRecordRow) : AbsRecord :=
  { location := r.location, timestamp := r.timestamp }

/-- One operation of the record-store contract. -/
inductive StoreOp where
  | create (tn kp dest eta key : String)
  | get (tn : String)
  | updEta (tn eta : String)
  | updDest (tn dest : String)
  | updStatus (tn s : String)
  | addLocation (tn loc : String)
  | listRecords (tn : String)
  | removeDelivered (tn : String)
  | getWith (tn : String)
  | verify (tn key : String)
deriving Repr, DecidableEq

/-- The observable outcome of one operation. -/
inductive Obs where
  | createdOk
  | opErr
  | boolRes (b : Bool)
  | trackingRes (t : Option AbsTracking)
  | recordsRes (l : List AbsRecord)
  | withRes (w : Option (AbsTracking × List AbsRecord))
  | verifyRes (b : Bool)
  | addOk
  | notFound
deriving Repr, DecidableEq

/-- One operation against the file backend (clock and id oracle `now`,
event-id oracle `rid`). -/
def fileStep (db : FileDB) (now rid : Nat) : StoreOp → Obs × FileDB
  | .create tn kp dest eta key =>
      let res := db.createTracking now tn kp dest eta key
        "Europe/Zurich" "en-CH"
      (.createdOk, res.2)
  | .get tn => (.trackingRes ((db.getTracking tn).map absFileTracking), db)
  | .updEta tn eta =>
      let res := db.updateEta now tn eta
      (.boolRes res.1, res.2)
  | .updDest tn dest =>
      let res := db.updateDestination now tn dest
      (.boolRes res.1, res.2)
  | .updStatus tn s =>
      let res := db.updateStatus now tn s
      (.boolRes res.1, res.2)
  | .addLocation tn loc =>
      match db.getTracking tn with
      | none => (.notFound, db)
      | some t =>
          let res := db.addTrackRecord now rid t.id tn loc
          (.addOk, res.2)
  | .listRecords tn =>
      (.recordsRes ((db.getTrackRecords tn).map absFileRecord), db)
  | .removeDelivered tn =>
      let res := db.removeDeliveryRecords tn
      (.boolRes res.1, res.2)
  | .getWith tn =>
      (.withRes ((db.getTrackingWithRecords tn).map
        (fun pr => (absFileTracking pr.1, pr.2.map absFileRecord))), db)
  | .verify tn key => (.verifyRes (db.verifyUpdateKey tn key), db)

/-- One operation against the relational backend (clock oracle `now`,
UUID oracle `uuid`).  An engine error surfaces as `Obs.opErr` and, the
statement having been rejected, leaves the state unchanged. -/
def pgStep (db : PgDB) (now : Nat) (uuid : String) : StoreOp → Obs × PgDB
  | .create tn kp dest eta key =>
      match db.createTracking uuid now tn kp dest eta key with
      | .ok res => (.createdOk, res.2)
      | .error _ => (.opErr, db)
  | .get tn => (.trackingRes ((db.getTracking tn).map absPgTracking), db)
  | .updEta tn eta =>
      let res := db.updateEta now tn eta
      (.boolRes res.1, res.2)
  | .updDest tn dest =>
      let res := db.updateDestination now tn dest
      (.boolRes res.1, res.2)
  | .updStatus tn s =>
      let res := db.updateStatus now tn s
      (.boolRes res.1, res.2)
  | .addLocation tn loc =>
      match db.getTracking tn with
      | none => (.notFound, db)
      | some t =>
          match db.addTrackRecord uuid now t.id tn loc with
          | .ok res => (.addOk, res.2)
          | .error _ => (.opErr, db)
  | .listRecords tn =>
      (.recordsRes ((db.getTrackRecords tn).map absPgRecord), db)
  | .removeDelivered tn =>
      let res := db.removeDeliveryRecords tn
      (.boolRes res.1, res.2)
  | .getWith tn =>
      (.withRes ((db.getTrackingWithRecords tn).map
        (fun pr => (absPgTracking pr.1, pr.2.map absPgRecord))), db)
  | .verify tn key => (.verifyRes (db.verifyUpdateKey tn key), db)

/-- Runs a script against the file backend.  `Date.now()` supplies both the
clock value and the generated ids, so the script's clock value serves as
both oracles. -/
def runFile (db : FileDB) : List (StoreOp × Nat) → List Obs
  | [] => []
  | (op, now) :: rest =>
      let res := fileStep db now now op
      res.1 :: runFile res.2 rest

/-- Runs a script against the relational backend, deriving each UUID from
the step's clock value (UUID values are never observed). -/
def runPg (db : PgDB) : List (StoreOp × Nat) → List Obs
  | [] => []
  | (op, now) :: rest =>
      let res := pgStep db now ("u" ++ toString now) op
      res.1 :: runPg res.2 rest

/-- The rows of the `track_records` table belonging to one tracking number,
in insertion order. -/
def pgRows (db : PgDB) (tn : String) : List PgRecordRow :=
  db.track_records.filter (fun r => r.tracking_number == tn)

/-- The identifier a `create` operation would insert, if any. -/
def opCreateTn : StoreOp → Option String
  | .create tn _ _ _ _ => some tn
  | _ => none

/-- Script well-formedness, checked against the file backend's run: every
step's clock strictly exceeds the previous one's, and no `create` reuses an
identifier that is present in the store at that point. -/
def agreeable (db : FileDB) (lo : Nat) : List (StoreOp × Nat) → Bool
  | [] => true
  | (op, now) :: rest =>
      decide (lo < now) &&
      (match opCreateTn op with
       | some tn => (db.getTracking tn).isNone
       | none => true) &&
      agreeable (fileStep db now now op).2 now rest

/-- The simulation relation between the two backends: record maps agree up
to id representation, per-identifier event lists agree up to id
representation in insertion order, the relational rows of each identifier
are non-decreasing by timestamp, and every stored event timestamp is
bounded by the clock. -/
structure SimRel (f : FileDB) (p : PgDB) (lo : Nat) : Prop where
  tr : ∀ tn, (f.getTracking tn).map absFileTracking =
    (p.getTracking tn).map absPgTracking
  ev : ∀ tn, (f.getTrackRecords tn).map absFileRecord =
    (pgRows p tn).map absPgRecord
  evSorted : ∀ tn,
    ((pgRows p tn).map PgRecordRow.timestamp).Sorted (· ≤ ·)
  bound : ∀ r ∈ p.track_records, r.timestamp ≤ lo

/-! ### Simulation helper lemmas -/

theorem list_any_map {α β : Type} (f : α → β) (p : β → Bool) (l : List α) :
    (l.map f).any p = l.any (fun a => p (f a)) := by
  induction l with
  | nil => rfl
  | cons a l ih => simp [List.any_cons, ih]

theorem SimRel.mono {f : FileDB} {p : PgDB} {lo lo' : Nat}
    (h : SimRel f p lo) (hle : lo ≤ lo') : SimRel f p lo' :=
  ⟨h.tr, h.ev, h.evSorted, fun r hr => le_trans (h.bound r hr) hle⟩

theorem absEq_fields {t : Tracking} {r : PgTracking}
    (h : absFileTracking t = absPgTracking r) :
    t.tracking_number = r.tracking_number ∧
    t.kiss_provider = r.kiss_provider ∧ t.destination = r.destination ∧
    t.eta = r.eta ∧ t.status = r.status ∧ t.update_key = r.update_key ∧
    t.creator_timezone = r.creator_timezone ∧
    t.creator_locale = r.creator_locale ∧ t.created_at = r.created_at ∧
    t.updated_at = r.updated_at := by
  simpa [absFileTracking, absPgTracking, AbsTracking.mk.injEq] using h

theorem tr_none {f : FileDB} {p : PgDB} {tn : String}
    (htr : (f.getTracking tn).map absFileTracking =
      (p.getTracking tn).map absPgTracking)
    (hf : f.getTracking tn = none) : p.getTracking tn = none := by
  rw [hf] at htr
  cases hp : p.getTracking tn with
  | none => rfl
  | some r =>
      rw [hp] at htr
      simp at htr

theorem tr_some {f : FileDB} {p : PgDB} {tn : String} {t : Tracking}
    (htr : (f.getTracking tn).map absFileTracking =
      (p.getTracking tn).map absPgTracking)
    (hf : f.getTracking tn = some t) :
    ∃ r, p.getTracking tn = some r ∧ absFileTracking t = absPgTracking r := by
  rw [hf] at htr
  cases hp : p.getTracking tn with
  | none =>
      rw [hp] at htr
      simp at htr
  | some r =>
      rw [hp] at htr
      simp only [Option.map_some'] at htr
      exact ⟨r, rfl, Option.some.inj htr⟩

theorem pg_any_tn (p : PgDB) (tn : String) :
    p.trackings.any (fun r => r.tracking_number == tn) =
      (p.getTracking tn).isSome := by
  cases h : p.getTracking tn with
  | none =>
      rw [PgDB.getTracking, List.find?_eq_none] at h
      simp only [Option.isSome_none]
      rw [List.any_eq_false]
      exact h
  | some r =>
      rw [PgDB.getTracking] at h
      simp only [Option.isSome_some]
      rw [List.any_eq_true]
      have hpred := List.find?_some h
      exact ⟨r, List.mem_of_find?_eq_some h, by simpa using hpred⟩

theorem pg_get_found {p : PgDB} {tn : String} {r : PgTracking}
    (h : p.getTracking tn = some r) : r.tracking_number = tn := by
  rw [PgDB.getTracking] at h
  have := List.find?_some h
  simpa using this

theorem pg_getTrackRecords_eq_rows (p : PgDB) (tn : String)
    (hs : ((pgRows p tn).map PgRecordRow.timestamp).Sorted (· ≤ ·)) :
    p.getTrackRecords tn = pgRows p tn := by
  have hp : List.Pairwise rowLE (pgRows p tn) := by
    have h2 := List.pairwise_map.mp hs
    exact h2
  rw [PgDB.getTrackRecords,
    show p.track_records.filter (fun r => r.tracking_number == tn) =
      pgRows p tn from rfl]
  exact List.Sorted.insertionSort_eq hp

theorem sorted_ts_append {l : List Nat} {x : Nat}
    (hs : l.Sorted (· ≤ ·)) (hb : ∀ y ∈ l, y ≤ x) :
    (l ++ [x]).Sorted (· ≤ ·) := by
  rw [List.Sorted, List.pairwise_append]
  exact ⟨hs, List.pairwise_singleton _ _, fun a ha b hb' =>
    (List.mem_singleton.mp hb') ▸ hb a ha⟩

theorem verify_agree (f : FileDB) (p : PgDB) (tn key : String)
    (htr : (f.getTracking tn).map absFileTracking =
      (p.getTracking tn).map absPgTracking) :
    f.verifyUpdateKey tn key = p.verifyUpdateKey tn key := by
  cases hf : f.getTracking tn with
  | none =>
      have hp := tr_none htr hf
      simp only [FileDB.verifyUpdateKey, PgDB.verifyUpdateKey, hf, hp]
  | some t =>
      obtain ⟨r, hp, habs⟩ := tr_some htr hf
      have hkey := (absEq_fields habs).2.2.2.2.2.1
      simp only [FileDB.verifyUpdateKey, PgDB.verifyUpdateKey, hf, hp, hkey]

theorem ev_ts_eq {f : FileDB} {p : PgDB} {tn : String}
    (hev : (f.getTrackRecords tn).map absFileRecord =
      (pgRows p tn).map absPgRecord) :
    (f.getTrackRecords tn).map TrackRecord.timestamp =
      (pgRows p tn).map PgRecordRow.timestamp := by
  have := congrArg (List.map AbsRecord.timestamp) hev
  simpa [List.map_map, Function.comp, absFileRecord, absPgRecord] using this

theorem ev_any_delivered_eq {f : FileDB} {p : PgDB} {tn : String}
    (hev : (f.getTrackRecords tn).map absFileRecord =
      (pgRows p tn).map absPgRecord) :
    (f.getTrackRecords tn).any (fun r => r.location == "Delivered") =
      (pgRows p tn).any (fun r => r.location == "Delivered") := by
  have h1 : (f.getTrackRecords tn).any (fun r => r.location == "Delivered") =
      ((f.getTrackRecords tn).map absFileRecord).any
        (fun a => a.location == "Delivered") := by
    rw [list_any_map]
    simp [absFileRecord]
  have h2 : (pgRows p tn).any (fun r => r.location == "Delivered") =
      ((pgRows p tn).map absPgRecord).any
        (fun a => a.location == "Delivered") := by
    rw [list_any_map]
    simp [absPgRecord]
  rw [h1, h2, hev]

theorem pg_get_map_noop {p : PgDB} {tn : String}
    (upd : PgTracking → PgTracking) (hp : p.getTracking tn = none)
    (tn' : String) :
    (p.getTracking tn').map
      (fun r => if r.tracking_number == tn then upd r else r) =
      p.getTracking tn' := by
  cases hq : p.getTracking tn' with
  | none => rfl
  | some r =>
      have hrtn := pg_get_found hq
      by_cases he : tn' = tn
      · subst he
        rw [hq] at hp
        cases hp
      · simp [hrtn, he]

theorem tr_after_update {f : FileDB} {p : PgDB} {tn : String} {t : Tracking}
    (htr : ∀ tn'', (f.getTracking tn'').map absFileTracking =
      (p.getTracking tn'').map absPgTracking)
    (hf : f.getTracking tn = some t)
    (fupd : Tracking → Tracking) (pupd : PgTracking → PgTracking)
    (hcompat : ∀ t' r, absFileTracking t' = absPgTracking r →
      absFileTracking (fupd t') = absPgTracking (pupd r))
    (tn' : String) :
    (objLookup (objInsert f.trackings tn (fupd t)) tn').map absFileTracking =
      ((p.getTracking tn').map
        (fun r => if r.tracking_number == tn then pupd r else r)).map
        absPgTracking := by
  by_cases he : tn' = tn
  · subst he
    rw [objLookup_insert_self]
    obtain ⟨r, hp, habs⟩ := tr_some (htr tn') hf
    rw [hp]
    have hrtn : r.tracking_number = tn' := pg_get_found hp
    simp [hrtn, hcompat t r habs]
  · rw [objLookup_insert_ne _ _ _ _ he]
    rw [show objLookup f.trackings tn' = f.getTracking tn' from rfl, htr tn']
    cases hp : p.getTracking tn' with
    | none => simp
    | some r =>
        have hrtn : r.tracking_number = tn' := pg_get_found hp
        simp [hrtn, he]

theorem pgRows_remove (p : PgDB) (tn tn' : String) :
    pgRows (p.removeDeliveryRecords tn).2 tn' =
      if tn' = tn then
        (pgRows p tn').filter (fun r => !(r.location == "Delivered"))
      else pgRows p tn' := by
  show (p.track_records.filter (fun r =>
      !(r.tracking_number == tn && r.location == "Delivered"))).filter
      (fun r => r.tracking_number == tn') = _
  rw [List.filter_filter]
  by_cases he : tn' = tn
  · subst he
    rw [if_pos rfl, show (pgRows p tn').filter
        (fun r => !(r.location == "Delivered")) =
        (p.track_records.filter (fun r => r.tracking_number == tn')).filter
          (fun r => !(r.location == "Delivered")) from rfl,
      List.filter_filter]
    congr 1
    funext r
    by_cases h1 : r.tracking_number == tn' <;>
      by_cases h2 : r.location == "Delivered" <;>
        simp [h1, h2]
  · rw [if_neg he, show pgRows p tn' =
        p.track_records.filter (fun r => r.tracking_number == tn') from rfl]
    congr 1
    funext r
    by_cases h1 : r.tracking_number == tn'
    · have : (r.tracking_number == tn) = false := by
        have := eq_of_beq h1
        simp [this, he]
      simp [h1, this]
    · simp [h1]

theorem map_abs_filter_file (l : List TrackRecord) :
    (l.filter (fun r => !(r.location == "Delivered"))).map absFileRecord =
      (l.map absFileRecord).filter
        (fun a => !(a.location == "Delivered")) := by
  rw [List.filter_map]
  congr 1

theorem map_abs_filter_pg (l : List PgRecordRow) :
    (l.filter (fun r => !(r.location == "Delivered"))).map absPgRecord =
      (l.map absPgRecord).filter
        (fun a => !(a.location == "Delivered")) := by
  rw [List.filter_map]
  congr 1

theorem stepAgree (op : StoreOp) (f : FileDB) (p : PgDB) (lo now : Nat)
    (uuid : String) (hrel : SimRel f p lo) (hlo : lo < now)
    (hfresh : ∀ tn, opCreateTn op = some tn → f.getTracking tn = none) :
    (fileStep f now now op).1 = (pgStep p now uuid op).1 ∧
    SimRel (fileStep f now now op).2 (pgStep p now uuid op).2 now := by
  have hrel' := hrel.mono (le_of_lt hlo)
  cases op with
  | get tn =>
      exact ⟨by simp [fileStep, pgStep, hrel.tr tn], hrel'⟩
  | verify tn key =>
      exact ⟨by simp [fileStep, pgStep,
        verify_agree f p tn key (hrel.tr tn)], hrel'⟩
  | listRecords tn =>
      refine ⟨?_, hrel'⟩
      simp only [fileStep, pgStep, Obs.recordsRes.injEq]
      rw [pg_getTrackRecords_eq_rows p tn (hrel.evSorted tn)]
      exact hrel.ev tn
  | getWith tn =>
      refine ⟨?_, hrel'⟩
      simp only [fileStep, pgStep, Obs.withRes.injEq]
      cases hf : f.getTracking tn with
      | none =>
          have hp := tr_none (hrel.tr tn) hf
          simp [FileDB.getTrackingWithRecords, PgDB.getTrackingWithRecords,
            hf, hp]
      | some t =>
          obtain ⟨r, hp, habs⟩ := tr_some (hrel.tr tn) hf
          have hts := ev_ts_eq (hrel.ev tn)
          have hsortf : List.Pairwise recLE (f.getTrackRecords tn) := by
            have hsp := hrel.evSorted tn
            rw [← hts] at hsp
            have h2 := List.pairwise_map.mp hsp
            exact h2
          have hsort_eq : (f.getTrackRecords tn).insertionSort recLE =
              f.getTrackRecords tn := List.Sorted.insertionSort_eq hsortf
          simp [FileDB.getTrackingWithRecords, PgDB.getTrackingWithRecords,
            hf, hp, hsort_eq, pg_getTrackRecords_eq_rows p tn
              (hrel.evSorted tn), habs, hrel.ev tn]
  | updEta tn eta =>
      have hpg : (pgStep p now uuid (StoreOp.updEta tn eta)).2 =
          PgDB.mk (p.trackings.map (fun r =>
            if r.tracking_number == tn then
              { r with eta := eta, updated_at := now }
            else r)) p.track_records := rfl
      have hgpres : ∀ r : PgTracking,
          ((fun r : PgTracking => if r.tracking_number == tn then
            { r with eta := eta, updated_at := now }
          else r) r).tracking_number = r.tracking_number := by
        intro r
        by_cases h : r.tracking_number == tn <;> simp [h]
      cases hf : f.getTracking tn with
      | none =>
          have hf' : objLookup f.trackings tn = none := hf
          have hp := tr_none (hrel.tr tn) hf
          have hany : p.trackings.any
              (fun r => r.tracking_number == tn) = false := by
            rw [pg_any_tn, hp]
            rfl
          have hfile : (fileStep f now now (StoreOp.updEta tn eta)).2 = f := by
            simp [fileStep, FileDB.updateEta, hf']
          refine ⟨by simp [fileStep, pgStep, FileDB.updateEta, PgDB.updateEta,
            hf', hany], ?_⟩
          rw [hfile, hpg]
          refine ⟨?_, ?_, ?_, ?_⟩
          · intro tn'
            rw [pg_getTracking_map p _ hgpres tn', pg_get_map_noop _ hp tn']
            exact hrel.tr tn'
          · intro tn'
            exact hrel.ev tn'
          · intro tn'
            exact hrel.evSorted tn'
          · intro r hr
            exact le_trans (hrel.bound r hr) (le_of_lt hlo)
      | some t =>
          have hf' : objLookup f.trackings tn = some t := hf
          have hany : p.trackings.any
              (fun r => r.tracking_number == tn) = true := by
            rw [pg_any_tn]
            obtain ⟨r, hp, _⟩ := tr_some (hrel.tr tn) hf
            rw [hp]
            rfl
          have hfile : (fileStep f now now (StoreOp.updEta tn eta)).2 =
              FileDB.mk (objInsert f.trackings tn
                { t with eta := eta, updated_at := now }) f.track_records := by
            simp [fileStep, FileDB.updateEta, hf']
          refine ⟨by simp [fileStep, pgStep, FileDB.updateEta, PgDB.updateEta,
            hf', hany], ?_⟩
          rw [hfile, hpg]
          refine ⟨?_, ?_, ?_, ?_⟩
          · intro tn'
            rw [pg_getTracking_map p _ hgpres tn']
            exact tr_after_update hrel.tr hf
              (fun t' => { t' with eta := eta, updated_at := now })
              (fun r => { r with eta := eta, updated_at := now })
              (fun t' r habs => by
                obtain ⟨h1, h2, h3, h4, h5, h6, h7, h8, h9, hA⟩ :=
                  absEq_fields habs
                simp [absFileTracking, absPgTracking, AbsTracking.mk.injEq,
                  h1, h2, h3, h4, h5, h6, h7, h8, h9, hA]) tn'
          · intro tn'
            exact hrel.ev tn'
          · intro tn'
            exact hrel.evSorted tn'
          · intro r hr
            exact le_trans (hrel.bound r hr) (le_of_lt hlo)
  | updDest tn dest =>
      have hpg : (pgStep p now uuid (StoreOp.updDest tn dest)).2 =
          PgDB.mk (p.trackings.map (fun r =>
            if r.tracking_number == tn then
              { r with destination := dest, updated_at := now }
            else r)) p.track_records := rfl
      have hgpres : ∀ r : PgTracking,
          ((fun r : PgTracking => if r.tracking_number == tn then
            { r with destination := dest, updated_at := now }
          else r) r).tracking_number = r.tracking_number := by
        intro r
        by_cases h : r.tracking_number == tn <;> simp [h]
      cases hf : f.getTracking tn with
      | none =>
          have hf' : objLookup f.trackings tn = none := hf
          have hp := tr_none (hrel.tr tn) hf
          have hany : p.trackings.any
              (fun r => r.tracking_number == tn) = false := by
            rw [pg_any_tn, hp]
            rfl
          have hfile : (fileStep f now now (StoreOp.updDest tn dest)).2 =
              f := by
            simp [fileStep, FileDB.updateDestination, hf']
          refine ⟨by simp [fileStep, pgStep, FileDB.updateDestination,
            PgDB.updateDestination, hf', hany], ?_⟩
          rw [hfile, hpg]
          refine ⟨?_, ?_, ?_, ?_⟩
          · intro tn'
            rw [pg_getTracking_map p _ hgpres tn', pg_get_map_noop _ hp tn']
            exact hrel.tr tn'
          · intro tn'
            exact hrel.ev tn'
          · intro tn'
            exact hrel.evSorted tn'
          · intro r hr
            exact le_trans (hrel.bound r hr) (le_of_lt hlo)
      | some t =>
          have hf' : objLookup f.trackings tn = some t := hf
          have hany : p.trackings.any
              (fun r => r.tracking_number == tn) = true := by
            rw [pg_any_tn]
            obtain ⟨r, hp, _⟩ := tr_some (hrel.tr tn) hf
            rw [hp]
            rfl
          have hfile : (fileStep f now now (StoreOp.updDest tn dest)).2 =
              FileDB.mk (objInsert f.trackings tn
                { t with destination := dest, updated_at := now })
                f.track_records := by
            simp [fileStep, FileDB.updateDestination, hf']
          refine ⟨by simp [fileStep, pgStep, FileDB.updateDestination,
            PgDB.updateDestination, hf', hany], ?_⟩
          rw [hfile, hpg]
          refine ⟨?_, ?_, ?_, ?_⟩
          · intro tn'
            rw [pg_getTracking_map p _ hgpres tn']
            exact tr_after_update hrel.tr hf
              (fun t' => { t' with destination := dest, updated_at := now })
              (fun r => { r with destination := dest, updated_at := now })
              (fun t' r habs => by
                obtain ⟨h1, h2, h3, h4, h5, h6, h7, h8, h9, hA⟩ :=
                  absEq_fields habs
                simp [absFileTracking, absPgTracking, AbsTracking.mk.injEq,
                  h1, h2, h3, h4, h5, h6, h7, h8, h9, hA]) tn'
          · intro tn'
            exact hrel.ev tn'
          · intro tn'
            exact hrel.evSorted tn'
          · intro r hr
            exact le_trans (hrel.bound r hr) (le_of_lt hlo)
  | updStatus tn s =>
      have hpg : (pgStep p now uuid (StoreOp.updStatus tn s)).2 =
          PgDB.mk (p.trackings.map (fun r =>
            if r.tracking_number == tn then
              { r with status := s, updated_at := now }
            else r)) p.track_records := rfl
      have hgpres : ∀ r : PgTracking,
          ((fun r : PgTracking => if r.tracking_number == tn then
            { r with status := s, updated_at := now }
          else r) r).tracking_number = r.tracking_number := by
        intro r
        by_cases h : r.tracking_number == tn <;> simp [h]
      cases hf : f.getTracking tn with
      | none =>
          have hf' : objLookup f.trackings tn = none := hf
          have hp := tr_none (hrel.tr tn) hf
          have hany : p.trackings.any
              (fun r => r.tracking_number == tn) = false := by
            rw [pg_any_tn, hp]
            rfl
          have hfile : (fileStep f now now (StoreOp.updStatus tn s)).2 =
              f := by
            simp [fileStep, FileDB.updateStatus, hf']
          refine ⟨by simp [fileStep, pgStep, FileDB.updateStatus,
            PgDB.updateStatus, hf', hany], ?_⟩
          rw [hfile, hpg]
          refine ⟨?_, ?_, ?_, ?_⟩
          · intro tn'
            rw [pg_getTracking_map p _ hgpres tn', pg_get_map_noop _ hp tn']
            exact hrel.tr tn'
          · intro tn'
            exact hrel.ev tn'
          · intro tn'
            exact hrel.evSorted tn'
          · intro r hr
            exact le_trans (hrel.bound r hr) (le_of_lt hlo)
      | some t =>
          have hf' : objLookup f.trackings tn = some t := hf
          have hany : p.trackings.any
              (fun r => r.tracking_number == tn) = true := by
            rw [pg_any_tn]
            obtain ⟨r, hp, _⟩ := tr_some (hrel.tr tn) hf
            rw [hp]
            rfl
          have hfile : (fileStep f now now (StoreOp.updStatus tn s)).2 =
              FileDB.mk (objInsert f.trackings tn
                { t with status := s, updated_at := now })
                f.track_records := by
            simp [fileStep, FileDB.updateStatus, hf']
          refine ⟨by simp [fileStep, pgStep, FileDB.updateStatus,
            PgDB.updateStatus, hf', hany], ?_⟩
          rw [hfile, hpg]
          refine ⟨?_, ?_, ?_, ?_⟩
          · intro tn'
            rw [pg_getTracking_map p _ hgpres tn']
            exact tr_after_update hrel.tr hf
              (fun t' => { t' with status := s, updated_at := now })
              (fun r => { r with status := s, updated_at := now })
              (fun t' r habs => by
                obtain ⟨h1, h2, h3, h4, h5, h6, h7, h8, h9, hA⟩ :=
                  absEq_fields habs
                simp [absFileTracking, absPgTracking, AbsTracking.mk.injEq,
                  h1, h2, h3, h4, h5, h6, h7, h8, h9, hA]) tn'
          · intro tn'
            exact hrel.ev tn'
          · intro tn'
            exact hrel.evSorted tn'
          · intro r hr
            exact le_trans (hrel.bound r hr) (le_of_lt hlo)
  | create tn kp dest eta key =>
      have hf := hfresh tn rfl
      have hp := tr_none (hrel.tr tn) hf
      have hp' : p.trackings.find? (fun r => r.tracking_number == tn) =
          none := by
        rw [← PgDB.getTracking]
        exact hp
      have hany : p.trackings.any
          (fun r => r.tracking_number == tn) = false := by
        rw [pg_any_tn, hp]
        rfl
      have hfile : (fileStep f now now (StoreOp.create tn kp dest eta key)).2 =
          FileDB.mk (objInsert f.trackings tn
            { id := now, tracking_number := tn, kiss_provider := kp,
              destination := dest, eta := eta, status := "Preparing",
              update_key := key, creator_timezone := "Europe/Zurich",
              creator_locale := "en-CH", created_at := now,
              updated_at := now }) f.track_records := rfl
      have hpg2 : (pgStep p now uuid (StoreOp.create tn kp dest eta key)).2 =
          PgDB.mk (p.trackings ++
            [{ id := uuid, tracking_number := tn, kiss_provider := kp,
               destination := dest, eta := eta, status := "Preparing",
               update_key := key, creator_timezone := "Europe/Zurich",
               creator_locale := "en-CH", created_at := now,
               updated_at := now }]) p.track_records := by
        simp [pgStep, PgDB.createTracking, hany]
      refine ⟨by simp [fileStep, pgStep, PgDB.createTracking, hany], ?_⟩
      rw [hfile, hpg2]
      refine ⟨?_, ?_, ?_, ?_⟩
      · intro tn'
        by_cases he : tn' = tn
        · subst he
          show (objLookup (objInsert f.trackings tn' _) tn').map
            absFileTracking = _
          rw [objLookup_insert_self]
          show _ = (List.find? _ (p.trackings ++ [_])).map absPgTracking
          rw [List.find?_append, hp']
          simp [absFileTracking, absPgTracking]
        · show (objLookup (objInsert f.trackings tn _) tn').map
            absFileTracking = _
          rw [objLookup_insert_ne _ _ _ _ he]
          show (f.getTracking tn').map absFileTracking =
            (List.find? _ (p.trackings ++ [_])).map absPgTracking
          rw [List.find?_append]
          have hrow : List.find? (fun r : PgTracking =>
              r.tracking_number == tn')
              [{ id := uuid, tracking_number := tn, kiss_provider := kp,
                 destination := dest, eta := eta, status := "Preparing",
                 update_key := key, creator_timezone := "Europe/Zurich",
                 creator_locale := "en-CH", created_at := now,
                 updated_at := now }] = none := by
            have hbe : (tn == tn') = false := by
              simp [Ne.symm he]
            simp [List.find?, hbe]
          rw [hrow, Option.or_none]
          exact hrel.tr tn'
      · intro tn'
        exact hrel.ev tn'
      · intro tn'
        exact hrel.evSorted tn'
      · intro r hr
        exact le_trans (hrel.bound r hr) (le_of_lt hlo)
  | addLocation tn loc =>
      cases hf : f.getTracking tn with
      | none =>
          have hp := tr_none (hrel.tr tn) hf
          have hfile : (fileStep f now now (StoreOp.addLocation tn loc)).2 =
              f := by
            simp [fileStep, hf]
          have hpg2 : (pgStep p now uuid (StoreOp.addLocation tn loc)).2 =
              p := by
            simp [pgStep, hp]
          refine ⟨by simp [fileStep, pgStep, hf, hp], ?_⟩
          rw [hfile, hpg2]
          exact hrel'
      | some t =>
          obtain ⟨r, hp, habs⟩ := tr_some (hrel.tr tn) hf
          have hrmem : r ∈ p.trackings := by
            have hp2 := hp
            rw [PgDB.getTracking] at hp2
            exact List.mem_of_find?_eq_some hp2
          have hfk : p.trackings.any (fun r2 => r2.id == r.id) = true := by
            rw [List.any_eq_true]
            exact ⟨r, hrmem, by simp⟩
          have hfile : (fileStep f now now (StoreOp.addLocation tn loc)).2 =
              FileDB.mk f.trackings (objInsert f.track_records tn
                ((objLookup f.track_records tn).getD [] ++
                  [{ id := now, tracking_id := t.id, location := loc,
                     timestamp := now }])) := by
            simp [fileStep, hf, FileDB.addTrackRecord]
          have hpg2 : (pgStep p now uuid (StoreOp.addLocation tn loc)).2 =
              PgDB.mk p.trackings (p.track_records ++
                [{ id := uuid, tracking_id := r.id, tracking_number := tn,
                   location := loc, timestamp := now }]) := by
            simp [pgStep, hp, PgDB.addTrackRecord, hfk]
          refine ⟨by simp [fileStep, pgStep, hf, hp, PgDB.addTrackRecord,
            hfk, FileDB.addTrackRecord], ?_⟩
          rw [hfile, hpg2]
          refine ⟨?_, ?_, ?_, ?_⟩
          · intro tn'
            exact hrel.tr tn'
          · intro tn'
            dsimp only [FileDB.getTrackRecords, pgRows]
            rw [List.filter_append]
            by_cases he : tn' = tn
            · subst he
              rw [objLookup_insert_self, Option.getD_some, List.map_append,
                List.map_append]
              refine congrArg₂ (· ++ ·) (hrel.ev tn') ?_
              simp [List.filter, absFileRecord, absPgRecord]
            · rw [objLookup_insert_ne _ _ _ _ he]
              have hbe : (tn == tn') = false := by
                simp [Ne.symm he]
              simp only [List.filter_cons, List.filter_nil, hbe,
                Bool.false_eq_true, if_false, List.append_nil]
              exact hrel.ev tn'
          · intro tn'
            dsimp only [pgRows]
            rw [List.filter_append]
            by_cases he : tn' = tn
            · subst he
              simp only [List.filter_cons, List.filter_nil,
                beq_self_eq_true, if_true, List.map_append]
              refine sorted_ts_append (hrel.evSorted tn') ?_
              intro y hy
              obtain ⟨r2, hr2, hr2y⟩ := List.mem_map.mp hy
              have hb := hrel.bound r2 (List.mem_of_mem_filter hr2)
              subst hr2y
              show r2.timestamp ≤ now
              omega
            · have hbe : (tn == tn') = false := by
                simp [Ne.symm he]
              simp only [List.filter_cons, List.filter_nil, hbe,
                Bool.false_eq_true, if_false, List.append_nil]
              exact hrel.evSorted tn'
          · intro r2 hr2
            rcases List.mem_append.mp hr2 with hm | hm
            · exact le_trans (hrel.bound r2 hm) (le_of_lt hlo)
            · rcases List.mem_singleton.mp hm with rfl
              exact le_refl now
  | removeDelivered tn =>
      have hpg2 : (pgStep p now uuid (StoreOp.removeDelivered tn)).2 =
          (p.removeDeliveryRecords tn).2 := rfl
      have hpgb : (pgStep p now uuid (StoreOp.removeDelivered tn)).1 =
          .boolRes (p.track_records.any (fun r =>
            r.tracking_number == tn && r.location == "Delivered")) := rfl
      have hpgany : p.track_records.any (fun r =>
          r.tracking_number == tn && r.location == "Delivered") =
          (pgRows p tn).any (fun r => r.location == "Delivered") := by
        rw [show pgRows p tn = p.track_records.filter (fun r =>
          r.tracking_number == tn) from rfl, List.any_filter]
      have hanyeq := ev_any_delivered_eq (hrel.ev tn)
      have hevS : ∀ tn', ((pgRows (p.removeDeliveryRecords tn).2 tn').map
          PgRecordRow.timestamp).Sorted (· ≤ ·) := by
        intro tn'
        rw [pgRows_remove]
        by_cases he : tn' = tn
        · rw [if_pos he]
          have hsub : List.Sublist
              (((pgRows p tn').filter (fun r =>
                !(r.location == "Delivered"))).map PgRecordRow.timestamp)
              ((pgRows p tn').map PgRecordRow.timestamp) :=
            (List.filter_sublist _).map _
          exact (hrel.evSorted tn').sublist hsub
        · rw [if_neg he]
          exact hrel.evSorted tn'
      have hbound : ∀ r ∈ (p.removeDeliveryRecords tn).2.track_records,
          r.timestamp ≤ now := by
        intro r hr
        have hm : r ∈ p.track_records := List.mem_of_mem_filter hr
        exact le_trans (hrel.bound r hm) (le_of_lt hlo)
      cases hl : objLookup f.track_records tn with
      | none =>
          have hlist : f.getTrackRecords tn = [] := by
            simp [FileDB.getTrackRecords, hl]
          have hrows : pgRows p tn = [] := by
            have hevtn := hrel.ev tn
            rw [hlist] at hevtn
            exact List.map_eq_nil_iff.mp hevtn.symm
          have hfile : (fileStep f now now (StoreOp.removeDelivered tn)).2 =
              f := by
            simp [fileStep, FileDB.removeDeliveryRecords, hl]
          have hobs : (fileStep f now now (StoreOp.removeDelivered tn)).1 =
              .boolRes false := by
            simp [fileStep, FileDB.removeDeliveryRecords, hl]
          refine ⟨?_, ?_⟩
          · rw [hobs, hpgb, hpgany, hrows]
            rfl
          · rw [hfile, hpg2]
            refine ⟨fun tn' => hrel.tr tn', ?_, hevS, hbound⟩
            intro tn'
            rw [pgRows_remove]
            by_cases he : tn' = tn
            · subst he
              rw [if_pos rfl, hrows, hlist]
              rfl
            · rw [if_neg he]
              exact hrel.ev tn'
      | some recs =>
          have hlist : f.getTrackRecords tn = recs := by
            simp [FileDB.getTrackRecords, hl]
          have hanyr : recs.any (fun r => r.location == "Delivered") =
              (pgRows p tn).any (fun r => r.location == "Delivered") := by
            rw [← hlist]
            exact hanyeq
          by_cases hany : recs.any (fun r => r.location == "Delivered") = true
          · have hne : recs.length ≠ (recs.filter (fun r =>
                !(r.location == "Delivered"))).length :=
              Ne.symm (Nat.ne_of_lt (length_filter_lt_of_any _ _ hany))
            have hfile : (fileStep f now now
                (StoreOp.removeDelivered tn)).2 = FileDB.mk f.trackings
                (objInsert f.track_records tn (recs.filter (fun r =>
                  !(r.location == "Delivered")))) := by
              simp [fileStep, FileDB.removeDeliveryRecords, hl, hne]
            have hobs : (fileStep f now now (StoreOp.removeDelivered tn)).1 =
                .boolRes true := by
              simp [fileStep, FileDB.removeDeliveryRecords, hl, hne]
            refine ⟨?_, ?_⟩
            · rw [hobs, hpgb, hpgany, ← hanyr, hany]
            · rw [hfile, hpg2]
              refine ⟨fun tn' => hrel.tr tn', ?_, hevS, hbound⟩
              intro tn'
              dsimp only [FileDB.getTrackRecords]
              rw [pgRows_remove]
              by_cases he : tn' = tn
              · subst he
                rw [objLookup_insert_self, Option.getD_some, if_pos rfl,
                  map_abs_filter_file, map_abs_filter_pg,
                  show recs.map absFileRecord =
                    (pgRows p tn').map absPgRecord from by
                      rw [← hlist]
                      exact hrel.ev tn']
              · rw [if_neg he, objLookup_insert_ne _ _ _ _ he]
                exact hrel.ev tn'
          · simp only [Bool.not_eq_true] at hany
            have hfe : recs.filter (fun r => !(r.location == "Delivered")) =
                recs := filter_eq_self_of_not_any _ _ hany
            have hlen : ¬(recs.length ≠ (recs.filter (fun r =>
                !(r.location == "Delivered"))).length) := by
              rw [hfe]
              simp
            have hfile : (fileStep f now now
                (StoreOp.removeDelivered tn)).2 = f := by
              simp [fileStep, FileDB.removeDeliveryRecords, hl, hfe]
            have hobs : (fileStep f now now (StoreOp.removeDelivered tn)).1 =
                .boolRes false := by
              simp [fileStep, FileDB.removeDeliveryRecords, hl, hfe]
            refine ⟨?_, ?_⟩
            · rw [hobs, hpgb, hpgany, ← hanyr, hany]
            · rw [hfile, hpg2]
              refine ⟨fun tn' => hrel.tr tn', ?_, hevS, hbound⟩
              intro tn'
              rw [pgRows_remove]
              by_cases he : tn' = tn
              · subst he
                rw [if_pos rfl, map_abs_filter_pg, ← hrel.ev tn', hlist,
                  ← map_abs_filter_file, hfe]
              · rw [if_neg he]
                exact hrel.ev tn'

theorem runAgree (script : List (StoreOp × Nat)) (f : FileDB) (p : PgDB)
    (lo : Nat) (hrel : SimRel f p lo)
    (hok : agreeable f lo script = true) :
    runFile f script = runPg p script := by
  induction script generalizing f p lo with
  | nil => rfl
  | cons step rest ih =>
      obtain ⟨op, now⟩ := step
      rw [agreeable] at hok
      simp only [Bool.and_eq_true, decide_eq_true_eq] at hok
      obtain ⟨⟨hlo, hcr⟩, hrest⟩ := hok
      have hfresh : ∀ tn, opCreateTn op = some tn →
          f.getTracking tn = none := by
        intro tn htn
        rw [htn] at hcr
        exact Option.isNone_iff_eq_none.mp hcr
      obtain ⟨hobs, hrel2⟩ :=
        stepAgree op f p lo now ("u" ++ toString now) hrel hlo hfresh
      rw [runFile, runPg]
      exact congrArg₂ List.cons hobs (ih _ _ now hrel2 hrest)

/-! ### Claim C4 -/

/-- C4 counterexample: the same two-operation script — create a record,
then create again under the same identifier — succeeds twice against the
file backend (silent overwrite) but fails on the second operation against
the relational backend (unique-constraint violation), so the observable
results differ. -/
theorem c4_counterexample :
    runFile fileEmpty
      [(StoreOp.create "LOVE1234" "Love Express" "Her Heart" "2024-02-14"
        "key-one", 1),
       (StoreOp.create "LOVE1234" "Love Express" "Her Heart" "2024-02-14"
        "key-two", 2)] ≠
    runPg pgEmpty
      [(StoreOp.create "LOVE1234" "Love Express" "Her Heart" "2024-02-14"
        "key-one", 1),
       (StoreOp.create "LOVE1234" "Love Express" "Her Heart" "2024-02-14"
        "key-two", 2)] := by decide

/-- C4 (amended): starting from empty stores, the file-backed and the
relational-backed implementations produce the same observable results for
every operation sequence that never creates an already-present identifier,
whose clock values strictly increase, with events appended through the
record lookup as the handlers do, and with observations comparing
everything except the representation of generated internal ids. -/
theorem c4_backend_equivalence (script : List (StoreOp × Nat))
    (hok : agreeable fileEmpty 0 script = true) :
    runFile fileEmpty script = runPg pgEmpty script :=
  runAgree script fileEmpty pgEmpty 0
    ⟨fun _ => rfl, fun _ => rfl,
      fun tn => by simp [pgRows, pgEmpty],
      fun r hr => by simp [pgEmpty] at hr⟩ hok

/-- A script exercising every contract operation. -/
def sampleScript : List (StoreOp × Nat) :=
  [(StoreOp.create "LOVE1234" "Love Express" "Her Heart" "2024-02-14"
    "secretkey1234567", 1),
   (StoreOp.updStatus "LOVE1234" "In Transit", 2),
   (StoreOp.addLocation "LOVE1234" "Left the flower shop", 3),
   (StoreOp.get "LOVE1234", 4),
   (StoreOp.listRecords "LOVE1234", 5),
   (StoreOp.updStatus "LOVE1234" "Delivered", 6),
   (StoreOp.addLocation "LOVE1234" "Delivered", 7),
   (StoreOp.updEta "LOVE1234" "2024-02-15", 8),
   (StoreOp.updDest "LOVE1234" "His Heart", 9),
   (StoreOp.removeDelivered "LOVE1234", 10),
   (StoreOp.getWith "LOVE1234", 11),
   (StoreOp.verify "LOVE1234" "secretkey1234567", 12),
   (StoreOp.get "GHOST999", 13)]

/-- C4 witness: the equivalence applied to the sample script. -/
theorem c4_witness :
    agreeable fileEmpty 0 sampleScript = true ∧
    runFile fileEmpty sampleScript = runPg pgEmpty sampleScript :=
  ⟨by decide, c4_backend_equivalence sampleScript (by decide)⟩

end KissTracker
